import Mathlib

/-!
The v8 runner (`runtime/v8/runner.go`): worker state machine.

A shallow embedding of the `Runner` type and its methods.  The runner is a
Go struct mutated in place, so every method becomes a state transformer on a
`World`: the runner's fields, the allocator of fresh handles, the goroutines
that are waiting to send on the mailbox, and the trace of observable effects
(status writes, engine calls, channel operations, registrar calls).

Go run-time behaviour that the methods rely on is made explicit:

* a method call or field access through a nil pointer panics (`Fault.nilDeref`);
* a send on a closed channel and a close of a closed channel panic;
* a send on a nil channel, or on a full buffered channel, blocks;
* deferred calls run when the function returns and when it panics.

Calls to `log.*` are not part of the model.
-/

/-- Script is the value handed to `Exec`: source text, file name, root flag. -/
structure Script where
  Source : String
  File : String
  Root : Bool
deriving DecidableEq, Repr

/-- Buffered Go channel of commands: pending values and the closed flag. -/
structure Chan where
  buf : List Nat
  closed : Bool
deriving DecidableEq, Repr

/-- Runner is the v8 runner.  Pointers and channels are `Option`s of handles:
`none` is Go's nil. -/
structure Runner where
  id : Nat
  iso : Option Nat
  ctx : Option Nat
  status : Nat
  signal : Option Chan
  chResp : Option Nat
  keepalive : Bool
  script : Option Script
  method : String
  sid : String
  args : Option (List Nat)
  global : Option (List (String × Nat))
deriving DecidableEq, Repr

/-- RunnerStatusInit is the runner status init (iota = 0). -/
abbrev RunnerStatusInit : Nat := 0
/-- RunnerStatusRunning is the runner status running. -/
abbrev RunnerStatusRunning : Nat := 1
/-- RunnerStatusCleaning is the runner status cleaning. -/
abbrev RunnerStatusCleaning : Nat := 2
/-- RunnerStatusReady is the runner status ready. -/
abbrev RunnerStatusReady : Nat := 3
/-- RunnerStatusDestroy is the runner status destroy. -/
abbrev RunnerStatusDestroy : Nat := 4
/-- RunnerCommandDestroy is the runner command destroy. -/
abbrev RunnerCommandDestroy : Nat := 5
/-- RunnerCommandClean is the runner command clean. -/
abbrev RunnerCommandClean : Nat := 6
/-- RunnerCommandReset is the runner command reset. -/
abbrev RunnerCommandReset : Nat := 7
/-- RunnerCommandExec is the runner command exec. -/
abbrev RunnerCommandExec : Nat := 8
/-- RunnerCommandClose is the runner command close. -/
abbrev RunnerCommandClose : Nat := 9
/-- RunnerCommandStatus is the runner command status. -/
abbrev RunnerCommandStatus : Nat := 10

/-- Capacity of the mailbox: `make(chan uint8, 2)`. -/
abbrev signalCap : Nat := 2

/-- Value sent on the correlation channel `chResp`: an error or a Go value. -/
inductive Resp where
  | err (e : Nat)
  | val (v : Nat)
deriving DecidableEq, Repr

/-- Observable effects, in program order. -/
inductive Event where
  | status (s : Nat)
  | newIsolate (iso : Nat)
  | makeTemplate (iso : Nat)
  | newContext (iso ctx : Nat)
  | ctxClose (ctx : Nat)
  | isoDispose (iso : Nat)
  | online (id : Nat)
  | ready
  | send (cmd : Nat)
  | recv (cmd : Nat)
  | closeSignal
  | go (cmd : Nat)
  | makeResp (ch : Nat)
  | resp (ch : Nat) (r : Resp)
  | compile (iso : Nat) (s : Script)
  | run (ctx : Nat)
  | release
  | setShareData (ctx : Nat) (sid : String) (root : Bool) (global : Option (List (String × Nat)))
  | jsValues (ctx : Nat) (args : Option (List Nat))
  | freeJsValues
  | methodCall (ctx : Nat) (method : String)
  | goValue (ctx : Nat)
deriving DecidableEq, Repr

/-- The runner together with its environment. -/
structure World where
  runner : Runner
  next : Nat
  pending : List Nat
  looping : Bool
  trace : List Event
deriving DecidableEq, Repr

/-- Go run-time panics the runner can raise. -/
inductive Fault where
  | nilDeref
  | sendOnClosed
  | closeOfClosed
deriving DecidableEq, Repr

/-- Outcome of running a piece of Go code from a world: it returns, it panics,
or it blocks on a channel operation; each carries the world reached. -/
inductive Res (α : Type) where
  | ok (a : α) (w : World)
  | panic (f : Fault) (w : World)
  | block (w : World)
deriving DecidableEq, Repr

/-- World reached by an outcome. -/
def Res.world {α : Type} : Res α → World
  | .ok _ w => w
  | .panic _ w => w
  | .block w => w

/-- Whether the code returned normally. -/
def Res.returned {α : Type} : Res α → Bool
  | .ok _ _ => true
  | _ => false

/-- Whether the code is blocked on a channel operation. -/
def Res.blocked {α : Type} : Res α → Bool
  | .block _ => true
  | _ => false

/-- Go code with a result of type `α`. -/
def M (α : Type) : Type := World → Res α

/-- Sequencing: a panic or a blocked operation stops the code. -/
def M.bind {α β : Type} (m : M α) (f : α → M β) : M β := fun w =>
  match m w with
  | .ok a w1 => f a w1
  | .panic e w1 => .panic e w1
  | .block w1 => .block w1

instance : Monad M where
  pure a := fun w => .ok a w
  bind := M.bind

/-- The results of the engine calls made by one `_exec`: the `err` each stage
returns (`none` is nil) and the Go value of the call's result. -/
structure EngineOutcome where
  compileErr : Option Nat
  runErr : Option Nat
  shareErr : Option Nat
  argsErr : Option Nat
  callErr : Option Nat
  goErr : Option Nat
  goRes : Nat
deriving DecidableEq, Repr

/-- Append an effect to the trace. -/
def World.log (w : World) (e : Event) : World :=
  { w with trace := w.trace ++ [e] }

/-- Run `body`, then the deferred `d`, also when `body` panics; a blocked body
never reaches its deferred calls. -/
def withDefer {α : Type} (d : World → World) (body : M α) : M α := fun w =>
  match body w with
  | .ok a w1 => .ok a (d w1)
  | .panic e w1 => .panic e (d w1)
  | .block w1 => .block w1

namespace Runner

/-- Assignment `runner.status = s`. -/
def setStatus (s : Nat) : M Unit := fun w =>
  .ok () ({ w with runner := { w.runner with status := s } }.log (.status s))

/-- Engine call `v8go.YaoNewIsolate()`: a fresh engine instance. -/
def YaoNewIsolate : M Nat := fun w =>
  .ok w.next ({ w with next := w.next + 1 }.log (.newIsolate w.next))

/-- Engine call `v8go.NewContext(iso, MakeTemplate(iso))`: the template is built
under the given engine instance, then a fresh context is created from it. -/
def NewContext (iso : Option Nat) : M Nat := fun w =>
  match iso with
  | none => .panic .nilDeref w
  | some i =>
    .ok w.next (({ w with next := w.next + 1 }.log (.makeTemplate i)).log (.newContext i w.next))

/-- Engine call `runner.ctx.Close()`. -/
def ctxClose : M Unit := fun w =>
  match w.runner.ctx with
  | none => .panic .nilDeref w
  | some c => .ok () (w.log (.ctxClose c))

/-- Engine call `runner.iso.Dispose()`. -/
def isoDispose : M Unit := fun w =>
  match w.runner.iso with
  | none => .panic .nilDeref w
  | some i => .ok () (w.log (.isoDispose i))

/-- Modelled from the spec: `dispatcher.online` is not in the source; it is the
pool registrar's `register(worker)` hook, recorded as an effect. -/
def online : M Unit := fun w =>
  .ok () (w.log (.online w.runner.id))

/-- Channel send `runner.signal <- cmd`. -/
def sendSignal (cmd : Nat) : M Unit := fun w =>
  match w.runner.signal with
  | none => .block w
  | some ch =>
    if ch.closed then .panic .sendOnClosed w
    else if ch.buf.length < signalCap then
      .ok () ({ w with runner := { w.runner with signal := some { ch with buf := ch.buf ++ [cmd] } } }.log
        (.send cmd))
    else .block w

/-- Guarded close of the mailbox: `if runner.signal != nil { close(runner.signal) }`. -/
def closeSignal : M Unit := fun w =>
  match w.runner.signal with
  | none => .ok () w
  | some ch =>
    if ch.closed then .panic .closeOfClosed w
    else .ok () ({ w with runner := { w.runner with signal := some { ch with closed := true } } }.log
      .closeSignal)

/-- Channel send `runner.chResp <- r`; the caller of `Exec` is the receiver. -/
def sendResp (r : Resp) : M Unit := fun w =>
  match w.runner.chResp with
  | none => .block w
  | some ch => .ok () (w.log (.resp ch r))

/-- Statement `go func() { runner.signal <- cmd }()`: the send happens later, in
its own goroutine. -/
def spawnSend (cmd : Nat) (w : World) : World :=
  { w with pending := w.pending ++ [cmd] }.log (.go cmd)

/-- Engine call `runner.iso.CompileUnboundScript(runner.script.Source,
runner.script.File, ...)`; returns the `err`. -/
def CompileUnboundScript (o : EngineOutcome) : M (Option Nat) := fun w =>
  match w.runner.iso, w.runner.script with
  | some i, some s => .ok o.compileErr (w.log (.compile i s))
  | _, _ => .panic .nilDeref w

/-- Engine call `instance.Run(runner.ctx)`; returns the `err`. -/
def Run (o : EngineOutcome) : M (Option Nat) := fun w =>
  match w.runner.ctx with
  | none => .panic .nilDeref w
  | some c => .ok o.runErr (w.log (.run c))

/-- Bridge call `bridge.SetShareData(runner.ctx, runner.ctx.Global(), &bridge.Share
{Sid: runner.sid, Root: runner.script.Root, Global: runner.global})`. -/
def SetShareData (o : EngineOutcome) : M (Option Nat) := fun w =>
  match w.runner.ctx, w.runner.script with
  | some c, some s => .ok o.shareErr (w.log (.setShareData c w.runner.sid s.Root w.runner.global))
  | _, _ => .panic .nilDeref w

/-- Bridge call `bridge.JsValues(runner.ctx, runner.args)`. -/
def JsValues (o : EngineOutcome) : M (Option Nat) := fun w =>
  match w.runner.ctx with
  | none => .panic .nilDeref w
  | some c => .ok o.argsErr (w.log (.jsValues c w.runner.args))

/-- Engine call `global.MethodCall(runner.method, bridge.Valuers(jsArgs)...)`. -/
def MethodCall (o : EngineOutcome) : M (Option Nat) := fun w =>
  match w.runner.ctx with
  | none => .panic .nilDeref w
  | some c => .ok o.callErr (w.log (.methodCall c w.runner.method))

/-- Bridge call `bridge.GoValue(jsRes, runner.ctx)`; returns the `err`, the value
being `o.goRes`. -/
def GoValue (o : EngineOutcome) : M (Option Nat) := fun w =>
  match w.runner.ctx with
  | none => .panic .nilDeref w
  | some c => .ok o.goErr (w.log (.goValue c))

/-- The handler `_exec`: compile, run the top level, inject the share data,
marshal the arguments, call the method, marshal the result. -/
def _exec (o : EngineOutcome) : M Unit := do
  match ← CompileUnboundScript o with
  | some e => sendResp (.err e)
  | none =>
    match ← Run o with
    | some _ => pure ()
    | none =>
      withDefer (fun w => w.log .release) do
        match ← SetShareData o with
        | some e => sendResp (.err e)
        | none =>
          match ← JsValues o with
          | some e => sendResp (.err e)
          | none =>
            withDefer (fun w => w.log .freeJsValues) do
              match ← MethodCall o with
              | some e => sendResp (.err e)
              | none =>
                match ← GoValue o with
                | some e => sendResp (.err e)
                | none => sendResp (.val o.goRes)

/-- The handler `exec`: `_exec` under a deferred goroutine that sends the
follow-up command, Destroy when not keepalive and Close otherwise. -/
def exec (o : EngineOutcome) : M Unit :=
  withDefer
    (fun w => if !w.runner.keepalive then spawnSend RunnerCommandDestroy w
              else spawnSend RunnerCommandClose w)
    (_exec o)

/-- The handler `reset`: dispose context and engine instance, build new ones. -/
def reset : M Unit := do
  setStatus RunnerStatusDestroy
  ctxClose
  isoDispose
  let iso ← YaoNewIsolate
  fun w => .ok () { w with runner := { w.runner with iso := some iso } }
  let ctx ← fun w => NewContext w.runner.iso w
  fun w => .ok () { w with runner := { w.runner with ctx := some ctx } }
  setStatus RunnerStatusReady
  online

/-- The handler `clean`: dispose the context and build a new one. -/
def clean : M Unit := do
  setStatus RunnerStatusCleaning
  ctxClose
  let ctx ← fun w => NewContext w.runner.iso w
  fun w => .ok () { w with runner := { w.runner with ctx := some ctx } }
  setStatus RunnerStatusReady
  online

/-- The handler `close`: a keepalive runner is reset; otherwise the mailbox is
closed and context, engine instance and arguments are released. -/
def close : M Unit := fun w =>
  if w.runner.keepalive then reset w
  else
    (do
      closeSignal
      ctxClose
      isoDispose
      fun w => .ok () { w with runner := { w.runner with iso := none, ctx := none, args := none } }
      : M Unit) w

/-- The handler `destory`: mark destroyed, close the mailbox, release context
and engine instance. The final `runner = nil` only clears the local receiver. -/
def destory : M Unit := do
  setStatus RunnerStatusDestroy
  closeSignal
  ctxClose
  isoDispose
  fun w => .ok () { w with runner := { w.runner with iso := none, ctx := none } }

/-- The public `Destroy`: send the destroy command. -/
def Destroy : M Unit := sendSignal RunnerCommandDestroy

/-- The public `Reset`: send the reset command. -/
def Reset : M Unit := sendSignal RunnerCommandReset

/-- The public `Exec`, up to its wait on `chResp`: the value it returns is the
one the exec handler sends on that channel. -/
def Exec (script : Script) : M Unit := do
  setStatus RunnerStatusRunning
  fun w => .ok () { w with runner := { w.runner with script := some script } }
  fun w => .ok () ({ w with runner := { w.runner with chResp := some w.next }, next := w.next + 1 }.log
    (.makeResp w.next))
  sendSignal RunnerCommandExec

/-- The public `Start`, up to the entry of its command loop.  `some s` is the
error returned for a runner whose status `s` is not init; `none` means the
readiness acknowledgement was sent and the loop entered. -/
def Start : M (Option Nat) := fun w =>
  if w.runner.status ≠ RunnerStatusInit then .ok (some w.runner.status) w
  else
    (do
      let iso ← YaoNewIsolate
      let ctx ← NewContext (some iso)
      fun w => .ok () { w with runner := { w.runner with iso := some iso, ctx := some ctx } }
      setStatus RunnerStatusReady
      if (← fun w => .ok w.runner.keepalive w) then online
      fun w => .ok () (w.log .ready)
      fun w => .ok none { w with looping := true }
      : M (Option Nat)) w

/-- Body of the loop's `switch signal`.  Only the destroy case returns from
`Start`; an unknown signal is logged and ignored. -/
def handle (o : EngineOutcome) (signal : Nat) : M Unit :=
  if signal = RunnerCommandClean then clean
  else if signal = RunnerCommandReset then reset
  else if signal = RunnerCommandExec then exec o
  else if signal = RunnerCommandClose then close
  else if signal = RunnerCommandDestroy then do
    destory
    fun w => .ok () { w with looping := false }
  else pure ()

/-- One pass of the command loop through `case signal := <-runner.signal`: with
no value to receive the loop waits (the ticker case does nothing), a closed and
drained mailbox yields the zero value. -/
def loopStep (o : EngineOutcome) : M Unit := fun w =>
  if !w.looping then .ok () w
  else
    match w.runner.signal with
    | none => .block w
    | some ch =>
      match ch.buf with
      | [] => if ch.closed then handle o 0 (w.log (.recv 0)) else .block w
      | cmd :: rest =>
        handle o cmd
          ({ w with runner := { w.runner with signal := some { ch with buf := rest } } }.log (.recv cmd))

/-- A goroutine spawned by `exec` performs its send on the mailbox. -/
def deliver : M Unit := fun w =>
  match w.pending with
  | [] => .ok () w
  | cmd :: rest =>
    match sendSignal cmd w with
    | .ok _ w1 => .ok () { w1 with pending := rest }
    | .panic e w1 => .panic e w1
    | .block w1 => .block w1

/-- NewRunner create a new v8 runner; `seq` is the package counter, an unsigned
integer of `bits` bits. Returns the new counter and the runner. -/
def NewRunner (bits seq : Nat) (keepalive : Bool) : Nat × Runner :=
  let seq1 := (seq + 1) % 2 ^ bits
  (seq1,
    { id := seq1, iso := none, ctx := none, status := RunnerStatusInit,
      signal := some { buf := [], closed := false }, chResp := none, keepalive := keepalive,
      script := none, method := "", sid := "", args := none, global := none })

/-- World of a runner just created: nothing allocated, nothing observed. -/
def World.init (r : Runner) : World :=
  { runner := r, next := 0, pending := [], looping := false, trace := [] }

end Runner

/-! ## Traces of operations -/

/-- An operation on a worker: the public calls, one pass of the command loop
(with the engine outcomes an exec would meet), and the send of a waiting
goroutine. -/
inductive Op where
  | Start
  | Exec (s : Script)
  | Reset
  | Destroy
  | loop (o : EngineOutcome)
  | deliver
deriving DecidableEq, Repr

/-- A caller blocked on a full mailbox waits with its command until there is
room; a caller blocked on a nil mailbox waits forever. -/
def park (cmd : Nat) (r : Res Unit) : Res Unit :=
  match r with
  | .block w => .block (if w.runner.signal.isSome then { w with pending := w.pending ++ [cmd] } else w)
  | .ok a w => .ok a w
  | .panic f w => .panic f w

/-- Run one operation. -/
def Op.run : Op → M Unit
  | .Start => fun w =>
    match Runner.Start w with
    | .ok _ w1 => .ok () w1
    | .panic f w1 => .panic f w1
    | .block w1 => .block w1
  | .Exec s => fun w => park RunnerCommandExec (Runner.Exec s w)
  | .Reset => fun w => park RunnerCommandReset (Runner.Reset w)
  | .Destroy => fun w => park RunnerCommandDestroy (Runner.Destroy w)
  | .loop o => Runner.loopStep o
  | .deliver => Runner.deliver

/-- Run a sequence of operations.  A panic ends the process; a blocked
goroutine waits while the others go on. -/
def runOps : List Op → World → Res Unit
  | [], w => .ok () w
  | op :: ops, w =>
    match op.run w with
    | .ok _ w1 => runOps ops w1
    | .block w1 => runOps ops w1
    | .panic f w1 => .panic f w1

/-- Whether the operation is the public `Exec`. -/
def Op.isExec : Op → Bool
  | .Exec _ => true
  | _ => false

/-! ## Observations on traces -/

/-- Number of values sent on a correlation channel. -/
def respCount (t : List Event) : Nat :=
  t.countP fun e => match e with
    | .resp _ _ => true
    | _ => false

/-- Number of calls of the registrar's hook `dispatcher.online`. -/
def onlineCount (t : List Event) : Nat :=
  t.countP fun e => match e with
    | .online _ => true
    | _ => false

/-- The effects other than writes to `runner.status`: engine calls and channel
operations, in order. -/
def teardownEffects (t : List Event) : List Event :=
  t.filter fun e => match e with
    | .status _ => false
    | _ => true

/-- The writes to `runner.status`, in order. -/
def statusWrites (t : List Event) : List Nat :=
  t.filterMap fun e => match e with
    | .status s => some s
    | _ => none

/-! ## Sample inputs -/

/-- A script with a `main` function. -/
def sampleScript : Script :=
  { Source := "function main() { return 41 + 1; }", File := "main.js", Root := false }

/-- Every engine call succeeds and the call yields 42. -/
def allOk : EngineOutcome :=
  { compileErr := none, runErr := none, shareErr := none, argsErr := none, callErr := none,
    goErr := none, goRes := 42 }

/-- The script compiles and its top-level run fails with error 7. -/
def runFails : EngineOutcome := { allOk with runErr := some 7 }

/-- A new runner (the first one created), not started. -/
def newWorld (keepalive : Bool) : World :=
  Runner.World.init (Runner.NewRunner 64 0 keepalive).2

/-- A started runner: `NewRunner` then `Start`. -/
def startedWorld (keepalive : Bool) : World :=
  (Runner.Start (newWorld keepalive)).world

/-- A started runner on which `Exec` was called. -/
def execWorld (keepalive : Bool) : World :=
  (Runner.Exec sampleScript (startedWorld keepalive)).world

/-- A runner that was started and has processed a Destroy command. -/
def destroyedWorld : World :=
  (runOps [.Start, .Destroy, .loop allOk] (newWorld false)).world

/-! ## Effects of the exec handler -/

/-- Whether `e` is an effect `_exec` can have on runner `r`: an engine or bridge
call on the runner's own engine instance, context, script and request fields,
or a send on its correlation channel. -/
def Event.ofExec (r : Runner) : Event → Bool
  | .compile i s => decide (r.iso = some i ∧ r.script = some s)
  | .run c => decide (r.ctx = some c)
  | .release => true
  | .setShareData c sid root g =>
    decide (r.ctx = some c ∧ sid = r.sid ∧ g = r.global ∧ r.script.map Script.Root = some root)
  | .jsValues c a => decide (r.ctx = some c ∧ a = r.args)
  | .freeJsValues => true
  | .methodCall c m => decide (r.ctx = some c ∧ m = r.method)
  | .goValue c => decide (r.ctx = some c)
  | .resp ch _ => decide (r.chResp = some ch)
  | _ => false

/-- The stages of `_exec`, in program order. -/
inductive Stage where
  | compile
  | run
  | share
  | args
  | call
  | result
deriving DecidableEq, Repr

/-- The stage an effect belongs to, for the six engine and bridge calls. -/
def Event.stage : Event → Option Stage
  | .compile _ _ => some .compile
  | .run _ => some .run
  | .setShareData _ _ _ _ => some .share
  | .jsValues _ _ => some .args
  | .methodCall _ _ => some .call
  | .goValue _ => some .result
  | _ => none

/-- The stages executed, in order. -/
def stagesRun (t : List Event) : List Stage := t.filterMap Event.stage

/-- The values sent on correlation channels, in order. -/
def responses (t : List Event) : List Resp :=
  t.filterMap fun e => match e with
    | .resp _ r => some r
    | _ => none

/-- The outcome in the spec's words: the failure of the first failing stage in
the order compile, top-level run, share data, arguments, method call, result;
the marshalled result when every stage succeeds. -/
def specOutcome (o : EngineOutcome) : Resp :=
  match o.compileErr, o.runErr, o.shareErr, o.argsErr, o.callErr, o.goErr with
  | some e, _, _, _, _, _ => .err e
  | none, some e, _, _, _, _ => .err e
  | none, none, some e, _, _, _ => .err e
  | none, none, none, some e, _, _ => .err e
  | none, none, none, none, some e, _ => .err e
  | none, none, none, none, none, some e => .err e
  | none, none, none, none, none, none => .val o.goRes

/-- The stages in the spec's words: every stage up to and including the first
failing one, and no later stage. -/
def specStages (o : EngineOutcome) : List Stage :=
  match o.compileErr, o.runErr, o.shareErr, o.argsErr, o.callErr, o.goErr with
  | some _, _, _, _, _, _ => [.compile]
  | none, some _, _, _, _, _ => [.compile, .run]
  | none, none, some _, _, _, _ => [.compile, .run, .share]
  | none, none, none, some _, _, _ => [.compile, .run, .share, .args]
  | none, none, none, none, some _, _ => [.compile, .run, .share, .args, .call]
  | none, none, none, none, none, _ => [.compile, .run, .share, .args, .call, .result]

/-- One Execute cycle: the caller's `Exec`, the loop's pass on the exec command,
the send of the follow-up command by its goroutine, the loop's pass on it. -/
def cycle (s : Script) (o : EngineOutcome) : List Op :=
  [.Exec s, .loop o, .deliver, .loop o]

/-- The effects on context `c`: its creation, the calls made in it, its
disposal. -/
def ctxHistory (c : Nat) (t : List Event) : List Event :=
  t.filter fun e => match e with
    | .newContext _ c1 => c1 == c
    | .ctxClose c1 => c1 == c
    | .run c1 => c1 == c
    | .setShareData c1 _ _ _ => c1 == c
    | .jsValues c1 _ => c1 == c
    | .methodCall c1 _ => c1 == c
    | .goValue c1 => c1 == c
    | _ => false

/-- The runners created by sequential calls of `NewRunner`, one per keepalive
flag, from the package counter `seq`. -/
def newRunners (bits : Nat) : Nat → List Bool → List Runner
  | _, [] => []
  | seq, k :: ks =>
    (Runner.NewRunner bits seq k).2 :: newRunners bits (Runner.NewRunner bits seq k).1 ks

/-- A started runner with a status command in its mailbox. -/
def statusQueryWorld : World :=
  { startedWorld true with
    runner := { (startedWorld true).runner with
      signal := some { buf := [RunnerCommandStatus], closed := false } } }

/-- Whether the request fields hold what `NewRunner` put there: empty method
name and session id, nil arguments and global bindings. -/
def Runner.blank (r : Runner) : Bool :=
  decide (r.method = "" ∧ r.sid = "" ∧ r.args = none ∧ r.global = none)

/-- Whether an effect carries blank request fields. -/
def Event.blank : Event → Bool
  | .methodCall _ m => decide (m = "")
  | .setShareData _ sid _ g => decide (sid = "" ∧ g = none)
  | .jsValues _ a => decide (a = none)
  | _ => true

/-- Whether the runner's request fields and every effect so far are blank. -/
def World.blank (w : World) : Bool :=
  w.runner.blank && w.trace.all Event.blank

/-!
The file uploader (`rag/qdrant/file.go`): chunking.

`Upload` reads lines with a `bufio.Scanner`, gathers them in a buffer and cuts
a document whenever the buffer has reached the chunk size.  A Go string is the
list of its bytes, `len` its length.  Go's `int` has `bits` bits and its
subtraction wraps around; a slice expression with a bound out of range panics.
-/

/-- A Go string: its bytes. -/
abbrev GoString : Type := List Nat

/-- The options of `rag.FileUploadOptions` that `Upload` reads. -/
structure FileUploadOptions where
  ChunkSize : Int
  ChunkOverlap : Int
  Async : Bool
  IndexName : GoString
deriving DecidableEq, Repr

/-- The fields of `rag.Document` that `Upload` fills: `DocID` is the number
formatted into the id string, `ChunkNumber` the metadata entry `chunk_number`. -/
structure Document where
  DocID : Nat
  Content : GoString
  ChunkSize : Int
  ChunkOverlap : Int
  ChunkNumber : Nat
deriving DecidableEq, Repr

/-- The two calls `Upload` makes on the engine: `IndexBatch` returns a task id
or an error, `IndexDoc` returns its `err`. -/
structure Engine where
  IndexBatch : GoString → List Document → Except Nat GoString
  IndexDoc : GoString → Document → Option Nat

/-- What `Upload` does: it panics, returns an error, or returns the documents
and the task id. -/
inductive UploadResult where
  | panic
  | readError (e : Nat)
  | indexError (e : Nat)
  | ok (documents : List Document) (taskID : GoString)
deriving DecidableEq, Repr

namespace FileUploader

/-- Result of an `int` operation of `bits` bits: two's complement wrap-around. -/
def wrapInt (bits : Nat) (x : Int) : Int :=
  (x + 2 ^ (bits - 1)) % 2 ^ bits - 2 ^ (bits - 1)

/-- The function `max`: returns the maximum of two integers. -/
def max (a b : Int) : Int :=
  if a > b then a else b

/-- Slice expression `s[low:]`; `none` is the panic for a bound out of range. -/
def sliceFrom (s : GoString) (low : Int) : Option GoString :=
  if 0 ≤ low ∧ low ≤ (s.length : Int) then some (s.drop low.toNat) else none

/-- The variables of the read loop. -/
structure ChunkState where
  buffer : GoString
  documents : List Document
  docID : Nat
deriving DecidableEq, Repr

/-- The document built from the buffer. -/
def newDocument (opts : FileUploadOptions) (st : ChunkState) (buffer : GoString) : Document :=
  { DocID := st.docID, Content := buffer, ChunkSize := opts.ChunkSize,
    ChunkOverlap := opts.ChunkOverlap, ChunkNumber := st.docID }

/-- Lower bound of the carry-over slice: `max(0, len(buffer)-opts.ChunkOverlap)`. -/
def carryLow (bits : Nat) (opts : FileUploadOptions) (buffer : GoString) : Int :=
  max 0 (wrapInt bits ((buffer.length : Int) - opts.ChunkOverlap))

/-- One pass of the read loop on a scanned line; `none` is a panic. -/
def scanLine (bits : Nat) (opts : FileUploadOptions) (st : ChunkState) (line : GoString) :
    Option ChunkState :=
  let buffer := st.buffer ++ (line ++ [10])
  if (buffer.length : Int) ≥ opts.ChunkSize then
    match sliceFrom buffer (carryLow bits opts buffer) with
    | none => none
    | some rest =>
      some { buffer := rest, documents := st.documents ++ [newDocument opts st buffer],
             docID := st.docID + 1 }
  else some { st with buffer := buffer }

/-- The read loop `for scanner.Scan()` over the lines the scanner yields. -/
def readLoop (bits : Nat) (opts : FileUploadOptions) : ChunkState → List GoString → Option ChunkState
  | st, [] => some st
  | st, line :: lines =>
    match scanLine bits opts st line with
    | none => none
    | some st1 => readLoop bits opts st1 lines

/-- The options after the default chunk size is applied. -/
def withDefaults (opts : FileUploadOptions) : FileUploadOptions :=
  if opts.ChunkSize ≤ 0 then { opts with ChunkSize := 1000 } else opts

/-- The documents `Upload` builds from the lines: the read loop, then the
document for the remaining content; `none` is a panic. -/
def chunks (bits : Nat) (opts : FileUploadOptions) (lines : List GoString) : Option (List Document) :=
  match readLoop bits (withDefaults opts) { buffer := [], documents := [], docID := 1 } lines with
  | none => none
  | some st =>
    if st.buffer.length > 0 then
      some (st.documents ++ [newDocument (withDefaults opts) st st.buffer])
    else some st.documents

/-- The synchronous indexing loop: the first `IndexDoc` error stops it. -/
def indexAll (engine : Engine) (name : GoString) : List Document → Option Nat
  | [] => none
  | doc :: docs =>
    match engine.IndexDoc name doc with
    | some e => some e
    | none => indexAll engine name docs

/-- Upload processes content from a reader: `lines` are the lines the scanner
yields and `readErr` is `scanner.Err()`. -/
def Upload (bits : Nat) (engine : Engine) (lines : List GoString) (readErr : Option Nat)
    (opts : FileUploadOptions) : UploadResult :=
  match chunks bits opts lines with
  | none => .panic
  | some documents =>
    match readErr with
    | some e => .readError e
    | none =>
      if opts.Async ∧ documents.length > 0 then
        match engine.IndexBatch opts.IndexName documents with
        | .error e => .indexError e
        | .ok taskID => .ok documents taskID
      else if documents.length > 0 then
        match indexAll engine opts.IndexName documents with
        | some e => .indexError e
        | none => .ok documents []
      else .ok documents []

/-- Concatenation of the lines, each followed by a newline. -/
def linesText (lines : List GoString) : GoString :=
  (lines.map fun line => line ++ [10]).flatten

/-- Concatenation of the contents of the documents, in order. -/
def contents (documents : List Document) : GoString :=
  (documents.map Document.Content).flatten

/-- An engine whose calls succeed. -/
def okEngine : Engine :=
  { IndexBatch := fun _ _ => .ok [116], IndexDoc := fun _ _ => none }

end FileUploader

/-! ## Sequencing lemmas -/

@[simp] theorem M.bind_apply {α β : Type} (m : M α) (f : α → M β) (w : World) :
    (m >>= f) w = M.bind m f w := rfl

@[simp] theorem M.pure_apply {α : Type} (a : α) (w : World) :
    (pure a : M α) w = .ok a w := rfl

namespace Runner

/-! ## The exec handler responds once, except when the top-level run fails -/

/-- C1: for a runner with engine instance, context, script and correlation
channel, `_exec` returns for every combination of engine outcomes, and it sends
one value on `chResp` on every path but one: when the script compiles and
its top-level run fails, it returns having sent nothing. -/
theorem exec_handler_resp_count (o : EngineOutcome) (w : World)
    (hiso : w.runner.iso ≠ none) (hctx : w.runner.ctx ≠ none)
    (hscript : w.runner.script ≠ none) (hch : w.runner.chResp ≠ none) :
    (_exec o w).returned = true ∧
    respCount (_exec o w).world.trace =
      respCount w.trace + (if o.compileErr = none ∧ o.runErr ≠ none then 0 else 1) := by
  obtain ⟨⟨rid, iso, ctx, st, signal, chResp, ka, script, method, sid, args, glob⟩,
    next, pending, looping, trace⟩ := w
  obtain ⟨ce, re, se, ae, cle, ge, gr⟩ := o
  cases iso <;> cases ctx <;> cases script <;> cases chResp <;> simp at hiso hctx hscript hch
  cases ce <;> cases re <;> cases se <;> cases ae <;> cases cle <;> cases ge <;>
    simp [_exec, M.bind, CompileUnboundScript, Run, SetShareData, JsValues, MethodCall, GoValue,
      sendResp, withDefer, World.log, Res.returned, Res.world, respCount, List.countP_append]

/-- C1, at the failing input: after `Start` and `Exec`, with a script whose
top-level run fails, `_exec` returns and the number of responses is unchanged. -/
theorem exec_handler_resp_count_witness :
    (_exec runFails (execWorld false)).returned = true ∧
    respCount (_exec runFails (execWorld false)).world.trace =
      respCount (execWorld false).trace +
        (if runFails.compileErr = none ∧ runFails.runErr ≠ none then 0 else 1) :=
  exec_handler_resp_count runFails (execWorld false) (by decide) (by decide) (by decide)
    (by decide)

/-! ## Exec has no status guard -/

/-- C2, counterexample: `Exec` on a runner just created by `NewRunner` (status
init) returns no error; it writes status running, stores the script and the
correlation channel and enqueues the exec command. -/
theorem Exec_init_not_fail_fast :
    (newWorld false).runner.status = RunnerStatusInit ∧
    (Exec sampleScript (newWorld false)).world.runner.status = RunnerStatusRunning ∧
    (Exec sampleScript (newWorld false)).world.runner.signal =
      some { buf := [RunnerCommandExec], closed := false } ∧
    (Exec sampleScript (newWorld false)).world.runner ≠ (newWorld false).runner := by
  decide

/-- C2, amended: for a runner in status init whose mailbox is open and has
room, `Exec` does not fail: it writes status running, stores the script and a
fresh correlation channel, enqueues one exec command and goes on to wait on the
channel.  It makes no engine call: context and engine instance are unchanged
and the only effects are the status write, the channel creation and the send. -/
theorem Exec_init_enqueues (script : Script) (w : World) (ch : Chan)
    (hst : w.runner.status = RunnerStatusInit)
    (hsig : w.runner.signal = some ch) (hopen : ch.closed = false)
    (hroom : ch.buf.length < signalCap) :
    Exec script w = .ok ()
      { runner := { w.runner with
          status := RunnerStatusRunning, script := some script, chResp := some w.next,
          signal := some { buf := ch.buf ++ [RunnerCommandExec], closed := false } },
        next := w.next + 1, pending := w.pending, looping := w.looping,
        trace := w.trace ++ [.status RunnerStatusRunning, .makeResp w.next,
          .send RunnerCommandExec] } ∧
    (Exec script w).world.runner.status ≠ w.runner.status ∧
    (Exec script w).world.runner.iso = w.runner.iso ∧
    (Exec script w).world.runner.ctx = w.runner.ctx := by
  obtain ⟨⟨rid, iso, ctx, st, signal, chResp, ka, scr, method, sid, args, glob⟩,
    next, pending, looping, trace⟩ := w
  obtain ⟨buf, closed⟩ := ch
  simp only at hst hsig hopen hroom
  subst hst hsig hopen
  simp [Exec, M.bind, setStatus, sendSignal, World.log, hroom, Res.world]

/-- C2, amended, at a runner just created by `NewRunner`. -/
theorem Exec_init_enqueues_witness :
    Exec sampleScript (newWorld true) = .ok ()
      { runner := { (newWorld true).runner with
          status := RunnerStatusRunning, script := some sampleScript,
          chResp := some (newWorld true).next,
          signal := some { buf := [] ++ [RunnerCommandExec], closed := false } },
        next := (newWorld true).next + 1, pending := (newWorld true).pending,
        looping := (newWorld true).looping,
        trace := (newWorld true).trace ++ [.status RunnerStatusRunning,
          .makeResp (newWorld true).next, .send RunnerCommandExec] } ∧
    (Exec sampleScript (newWorld true)).world.runner.status ≠ (newWorld true).runner.status ∧
    (Exec sampleScript (newWorld true)).world.runner.iso = (newWorld true).runner.iso ∧
    (Exec sampleScript (newWorld true)).world.runner.ctx = (newWorld true).runner.ctx :=
  Exec_init_enqueues sampleScript (newWorld true) { buf := [], closed := false }
    (by decide) (by decide) (by decide) (by decide)

/-! ## Destroy after destroy -/

/-- C3: once `destory` has run on a runner that has a mailbox, the mailbox is
closed and still non-nil, so a further public `Destroy` panics (send on a
closed channel) and a second `destory` panics (close of a closed channel). -/
theorem destroy_twice_faults (w w1 : World)
    (hsig : w.runner.signal ≠ none) (hret : destory w = .ok () w1) :
    w1.runner.status = RunnerStatusDestroy ∧
    Destroy w1 = .panic .sendOnClosed w1 ∧
    destory w1 = .panic .closeOfClosed (w1.log (.status RunnerStatusDestroy)) := by
  obtain ⟨⟨rid, iso, ctx, st, signal, chResp, ka, scr, method, sid, args, glob⟩,
    next, pending, looping, trace⟩ := w
  cases signal with
  | none => simp at hsig
  | some ch =>
    obtain ⟨buf, closed⟩ := ch
    cases closed <;> cases ctx <;> cases iso <;>
      simp [destory, M.bind, setStatus, closeSignal, ctxClose, isoDispose, World.log] at hret
    subst hret
    simp [Destroy, destory, sendSignal, M.bind, setStatus, closeSignal, World.log]

/-- C3, at the failing input: a runner that was created, started and destroyed. -/
theorem destroy_twice_faults_witness :
    (startedWorld false).runner.signal ≠ none ∧
    destory (startedWorld false) = .ok () (destory (startedWorld false)).world ∧
    (destory (startedWorld false)).world.runner.status = RunnerStatusDestroy ∧
    Destroy (destory (startedWorld false)).world =
      .panic .sendOnClosed (destory (startedWorld false)).world ∧
    destory (destory (startedWorld false)).world =
      .panic .closeOfClosed ((destory (startedWorld false)).world.log (.status RunnerStatusDestroy)) :=
  ⟨by decide, by decide,
    destroy_twice_faults (startedWorld false) (destory (startedWorld false)).world
      (by decide) (by decide)⟩

/-! ## Destroyed and the later operations -/

/-- C4, counterexample: the public `Exec` on a destroyed runner writes status
running over destroyed before its send panics, and `reset` on a ready runner
writes destroyed and then ready. -/
theorem destroyed_overwritten :
    destroyedWorld.runner.status = RunnerStatusDestroy ∧
    (Exec sampleScript destroyedWorld).world.runner.status = RunnerStatusRunning ∧
    (runOps [.Exec sampleScript] destroyedWorld).world.runner.status = RunnerStatusRunning ∧
    statusWrites (reset (startedWorld true)).world.trace =
      statusWrites (startedWorld true).trace ++ [RunnerStatusDestroy, RunnerStatusReady] := by
  decide

/-- The operations other than `Exec` keep a destroyed runner whose loop has
returned in that state. -/
theorem Op.run_destroyed (op : Op) (w : World) (hop : op.isExec = false)
    (hst : w.runner.status = RunnerStatusDestroy) (hloop : w.looping = false) :
    (op.run w).world.runner.status = RunnerStatusDestroy ∧ (op.run w).world.looping = false := by
  obtain ⟨⟨rid, iso, ctx, st, signal, chResp, ka, scr, method, sid, args, glob⟩,
    next, pending, looping, trace⟩ := w
  simp only at hst hloop
  subst hst hloop
  cases op with
  | Exec s => simp [Op.isExec] at hop
  | Start => simp [Op.run, Start, Res.world]
  | Reset =>
    cases signal with
    | none => simp [Op.run, Reset, sendSignal, park, Res.world]
    | some ch =>
      by_cases hc : ch.closed = true <;> by_cases hl : ch.buf.length < signalCap <;>
        simp [Op.run, Reset, sendSignal, park, Res.world, World.log, hc, hl]
  | Destroy =>
    cases signal with
    | none => simp [Op.run, Destroy, sendSignal, park, Res.world]
    | some ch =>
      by_cases hc : ch.closed = true <;> by_cases hl : ch.buf.length < signalCap <;>
        simp [Op.run, Destroy, sendSignal, park, Res.world, World.log, hc, hl]
  | loop o => simp [Op.run, loopStep, Res.world]
  | deliver =>
    cases pending with
    | nil => simp [Op.run, deliver, Res.world]
    | cons cmd rest =>
      cases signal with
      | none => simp [Op.run, deliver, sendSignal, Res.world]
      | some ch =>
        by_cases hc : ch.closed = true <;> by_cases hl : ch.buf.length < signalCap <;>
          simp [Op.run, deliver, sendSignal, Res.world, World.log, hc, hl]

/-- C4, amended: once the loop has processed Destroy (status destroyed, loop
returned), every sequence of `Start`, `Reset`, `Destroy`, loop passes and
goroutine sends leaves the status destroyed; only the public `Exec` writes
another status over it. -/
theorem destroyed_terminal (ops : List Op) (w : World)
    (hops : ∀ op ∈ ops, op.isExec = false)
    (hst : w.runner.status = RunnerStatusDestroy) (hloop : w.looping = false) :
    (runOps ops w).world.runner.status = RunnerStatusDestroy := by
  induction ops generalizing w with
  | nil => simpa [runOps, Res.world] using hst
  | cons op ops ih =>
    have hstep := Op.run_destroyed op w (hops op (List.mem_cons_self _ _)) hst hloop
    have hrest : ∀ op1 ∈ ops, op1.isExec = false :=
      fun op1 h => hops op1 (List.mem_cons_of_mem _ h)
    simp only [runOps]
    cases hr : op.run w with
    | ok a w1 =>
      rw [hr] at hstep
      exact ih w1 hrest hstep.1 hstep.2
    | block w1 =>
      rw [hr] at hstep
      exact ih w1 hrest hstep.1 hstep.2
    | panic f w1 =>
      rw [hr] at hstep
      exact hstep.1

/-- C4, amended, at a destroyed runner and one operation of each kind. -/
theorem destroyed_terminal_witness :
    (∀ op ∈ [Op.Start, Op.loop allOk, Op.deliver, Op.Reset, Op.Destroy], op.isExec = false) ∧
    destroyedWorld.runner.status = RunnerStatusDestroy ∧
    destroyedWorld.looping = false ∧
    (runOps [Op.Start, Op.loop allOk, Op.deliver, Op.Reset, Op.Destroy]
      destroyedWorld).world.runner.status = RunnerStatusDestroy :=
  ⟨by decide, by decide, by decide,
    destroyed_terminal [Op.Start, Op.loop allOk, Op.deliver, Op.Reset, Op.Destroy] destroyedWorld
      (by decide) (by decide) (by decide)⟩

/-! ## Start -/

/-- C5: for a runner whose status is not init, `Start` returns an error (the
one naming that status) and changes nothing: status, context, engine instance,
mailbox and every other field are as before, no handle is allocated, no effect
is recorded (no engine call, no registrar call, no readiness send) and the
command loop is not entered. -/
theorem Start_not_init (w : World) (hst : w.runner.status ≠ RunnerStatusInit) :
    Start w = .ok (some w.runner.status) w := by
  simp [Start, hst]

/-- C5, at a started runner (status ready). -/
theorem Start_not_init_witness :
    (startedWorld true).runner.status ≠ RunnerStatusInit ∧
    Start (startedWorld true) = .ok (some (startedWorld true).runner.status) (startedWorld true) :=
  ⟨by decide, Start_not_init (startedWorld true) (by decide)⟩

/-- C6: for a runner in status init, keepalive or not, `Start` creates a fresh
engine instance and a fresh context under it, stores both, writes status
ready, calls the registrar when keepalive, and sends the readiness
acknowledgement as its last effect before the loop: at that moment the status
is ready and both handles are non-nil. -/
theorem Start_init_ready (w : World) (hst : w.runner.status = RunnerStatusInit) :
    Start w = .ok none
      { runner := { w.runner with
          iso := some w.next, ctx := some (w.next + 1), status := RunnerStatusReady },
        next := w.next + 2, pending := w.pending, looping := true,
        trace := w.trace ++ [.newIsolate w.next, .makeTemplate w.next,
          .newContext w.next (w.next + 1), .status RunnerStatusReady] ++
          (if w.runner.keepalive then [.online w.runner.id] else []) ++ [.ready] } ∧
    (Start w).world.runner.status = RunnerStatusReady ∧
    (Start w).world.runner.iso ≠ none ∧ (Start w).world.runner.ctx ≠ none ∧
    (Start w).world.trace.getLast? = some .ready := by
  obtain ⟨⟨rid, iso, ctx, st, signal, chResp, ka, scr, method, sid, args, glob⟩,
    next, pending, looping, trace⟩ := w
  simp only at hst
  subst hst
  cases ka <;>
    simp [Start, M.bind, YaoNewIsolate, NewContext, setStatus, online, World.log, Res.world]

/-- C6, at new runners, not keepalive and keepalive. -/
theorem Start_init_ready_witness :
    (newWorld false).runner.status = RunnerStatusInit ∧
    (Start (newWorld false)).world.runner.status = RunnerStatusReady ∧
    (Start (newWorld false)).world.runner.iso ≠ none ∧
    (Start (newWorld false)).world.runner.ctx ≠ none ∧
    (Start (newWorld false)).world.trace.getLast? = some .ready ∧
    (Start (newWorld true)).world.runner.status = RunnerStatusReady :=
  ⟨by decide, (Start_init_ready (newWorld false) (by decide)).2.1,
    (Start_init_ready (newWorld false) (by decide)).2.2.1,
    (Start_init_ready (newWorld false) (by decide)).2.2.2.1,
    (Start_init_ready (newWorld false) (by decide)).2.2.2.2,
    (Start_init_ready (newWorld true) (by decide)).2.1⟩

/-! ## Registrar calls -/

/-- C7, counterexample: on a started runner that is not keepalive, `reset` and
`clean` each call the registrar once. -/
theorem online_not_keepalive :
    (startedWorld false).runner.keepalive = false ∧
    onlineCount (startedWorld false).trace = 0 ∧
    onlineCount (reset (startedWorld false)).world.trace = 1 ∧
    onlineCount (clean (startedWorld false)).world.trace = 1 ∧
    onlineCount (runOps [.Reset, .loop allOk] (startedWorld false)).world.trace = 1 := by
  decide

/-- The exec handler `_exec` changes no field of the runner, allocates nothing,
spawns nothing, leaves the loop flag alone and never calls the registrar. -/
theorem _exec_frame (o : EngineOutcome) (w : World) :
    (_exec o w).world.runner = w.runner ∧ (_exec o w).world.next = w.next ∧
    (_exec o w).world.pending = w.pending ∧ (_exec o w).world.looping = w.looping ∧
    onlineCount (_exec o w).world.trace = onlineCount w.trace := by
  obtain ⟨⟨rid, iso, ctx, st, signal, chResp, ka, script, method, sid, args, glob⟩,
    next, pending, looping, trace⟩ := w
  obtain ⟨ce, re, se, ae, cle, ge, gr⟩ := o
  rcases iso with _ | i
  · simp [_exec, M.bind, CompileUnboundScript, Res.world]
  rcases script with _ | s
  · simp [_exec, M.bind, CompileUnboundScript, Res.world]
  rcases ce with _ | e
  swap
  · cases chResp <;>
      simp [_exec, M.bind, CompileUnboundScript, sendResp, World.log, Res.world, onlineCount,
        List.countP_append]
  rcases ctx with _ | c
  · simp [_exec, M.bind, CompileUnboundScript, Run, World.log, Res.world, onlineCount,
      List.countP_append]
  cases chResp <;> cases re <;> cases se <;> cases ae <;> cases cle <;> cases ge <;>
    simp [_exec, M.bind, CompileUnboundScript, Run, SetShareData, JsValues, MethodCall, GoValue,
      sendResp, withDefer, World.log, Res.world, onlineCount, List.countP_append]

/-- The handler `reset` calls the registrar once, as its last step. -/
theorem reset_onlineCount (w : World) :
    onlineCount (reset w).world.trace =
      onlineCount w.trace + (if (reset w).returned then 1 else 0) := by
  obtain ⟨⟨rid, iso, ctx, st, signal, chResp, ka, script, method, sid, args, glob⟩,
    next, pending, looping, trace⟩ := w
  cases iso <;> cases ctx <;>
    simp [reset, M.bind, setStatus, ctxClose, isoDispose, YaoNewIsolate, NewContext, online,
      World.log, Res.world, Res.returned, onlineCount, List.countP_append]

/-- C7, amended: `Start` calls the registrar once when it succeeds on a
keepalive runner and never otherwise; `reset` and `clean` call it once, right
after writing status ready, whenever they run to their end, keepalive or not
(and they do when context and engine instance are non-nil); `close` calls it
once for a keepalive runner (through `reset`) and never for another; `exec`
and `destory` never call it. -/
theorem online_calls (o : EngineOutcome) (w : World) :
    onlineCount (Start w).world.trace = onlineCount w.trace +
      (if w.runner.status = RunnerStatusInit ∧ w.runner.keepalive = true then 1 else 0) ∧
    onlineCount (reset w).world.trace = onlineCount w.trace +
      (if (reset w).returned then 1 else 0) ∧
    onlineCount (clean w).world.trace = onlineCount w.trace +
      (if (clean w).returned then 1 else 0) ∧
    onlineCount (close w).world.trace = onlineCount w.trace +
      (if w.runner.keepalive = true ∧ (close w).returned = true then 1 else 0) ∧
    onlineCount (exec o w).world.trace = onlineCount w.trace ∧
    onlineCount (destory w).world.trace = onlineCount w.trace ∧
    (w.runner.ctx ≠ none → w.runner.iso ≠ none →
      (reset w).returned = true ∧ (clean w).returned = true ∧
      (reset w).world.trace.drop ((reset w).world.trace.length - 2) =
        [.status RunnerStatusReady, .online w.runner.id] ∧
      (clean w).world.trace.drop ((clean w).world.trace.length - 2) =
        [.status RunnerStatusReady, .online w.runner.id]) := by
  refine ⟨?_, reset_onlineCount w, ?_, ?_, ?_, ?_, ?_⟩
  · obtain ⟨⟨rid, iso, ctx, st, signal, chResp, ka, script, method, sid, args, glob⟩,
      next, pending, looping, trace⟩ := w
    by_cases h : st = RunnerStatusInit <;> cases ka <;>
      simp [Start, M.bind, YaoNewIsolate, NewContext, setStatus, online, World.log, Res.world,
        onlineCount, List.countP_append, h]
  · obtain ⟨⟨rid, iso, ctx, st, signal, chResp, ka, script, method, sid, args, glob⟩,
      next, pending, looping, trace⟩ := w
    cases iso <;> cases ctx <;>
      simp [clean, M.bind, setStatus, ctxClose, NewContext, online,
        World.log, Res.world, Res.returned, onlineCount, List.countP_append]
  · by_cases hk : w.runner.keepalive = true
    · have hc : close w = reset w := by simp [close, hk]
      rw [hc, reset_onlineCount w]
      simp [hk]
    · obtain ⟨⟨rid, iso, ctx, st, signal, chResp, ka, script, method, sid, args, glob⟩,
        next, pending, looping, trace⟩ := w
      simp only [Bool.not_eq_true] at hk
      subst hk
      rcases signal with _ | ⟨buf, closed⟩ <;> cases iso <;> cases ctx <;> try cases closed
      all_goals
        simp [close, M.bind, closeSignal, ctxClose, isoDispose,
          World.log, Res.world, Res.returned, onlineCount, List.countP_append]
  · have h := (_exec_frame o w).2.2.2.2
    unfold exec withDefer
    cases hr : _exec o w with
    | ok a w1 =>
      rw [hr] at h
      simp only [Res.world] at h
      cases hk : w1.runner.keepalive <;>
        simp [hk, spawnSend, World.log, Res.world, onlineCount, List.countP_append] <;>
        simpa [onlineCount] using h
    | panic f w1 =>
      rw [hr] at h
      simp only [Res.world] at h
      cases hk : w1.runner.keepalive <;>
        simp [hk, spawnSend, World.log, Res.world, onlineCount, List.countP_append] <;>
        simpa [onlineCount] using h
    | block w1 =>
      rw [hr] at h
      simpa [Res.world] using h
  · obtain ⟨⟨rid, iso, ctx, st, signal, chResp, ka, script, method, sid, args, glob⟩,
      next, pending, looping, trace⟩ := w
    rcases signal with _ | ⟨buf, closed⟩ <;> cases iso <;> cases ctx <;> try cases closed
    all_goals
      simp [destory, M.bind, setStatus, closeSignal, ctxClose, isoDispose,
        World.log, Res.world, onlineCount, List.countP_append]
  · obtain ⟨⟨rid, iso, ctx, st, signal, chResp, ka, script, method, sid, args, glob⟩,
      next, pending, looping, trace⟩ := w
    intro hctx hiso
    cases iso <;> cases ctx <;> simp at hctx hiso
    simp [reset, clean, M.bind, setStatus, ctxClose, isoDispose, YaoNewIsolate, NewContext, online,
      World.log, Res.world, Res.returned]

/-! ## The follow-up command of the exec handler -/

/-- With a correlation channel to send on, `_exec` never blocks; with engine
instance, context and script as well, it returns. -/
theorem _exec_exits (o : EngineOutcome) (w : World) (hch : w.runner.chResp ≠ none) :
    (_exec o w).blocked = false ∧
    (w.runner.iso ≠ none → w.runner.ctx ≠ none → w.runner.script ≠ none →
      (_exec o w).returned = true) := by
  obtain ⟨⟨rid, iso, ctx, st, signal, chResp, ka, script, method, sid, args, glob⟩,
    next, pending, looping, trace⟩ := w
  obtain ⟨ce, re, se, ae, cle, ge, gr⟩ := o
  rcases chResp with _ | ch
  · simp at hch
  rcases iso with _ | i
  · simp [_exec, M.bind, CompileUnboundScript, Res.blocked]
  rcases script with _ | s
  · simp [_exec, M.bind, CompileUnboundScript, Res.blocked]
  rcases ce with _ | e
  swap
  · simp [_exec, M.bind, CompileUnboundScript, sendResp, World.log, Res.blocked, Res.returned]
  rcases ctx with _ | c
  · simp [_exec, M.bind, CompileUnboundScript, Run, World.log, Res.blocked]
  cases re <;> cases se <;> cases ae <;> cases cle <;> cases ge <;>
    simp [_exec, M.bind, CompileUnboundScript, Run, SetShareData, JsValues, MethodCall, GoValue,
      sendResp, withDefer, World.log, Res.blocked, Res.returned]

/-- C8: on every exit of the exec handler, return or panic, whatever the engine
outcomes, exactly one goroutine is left to send one follow-up command on the
runner's own mailbox: Close if keepalive, Destroy if not.  The handler changes
no field of the runner, the loop's exec case is that handler and nothing else,
and the loop goes on; with engine instance, context and script in place the
handler returns. -/
theorem exec_follow_up (o : EngineOutcome) (w : World) (hch : w.runner.chResp ≠ none) :
    (exec o w).blocked = false ∧
    (exec o w).world.pending = w.pending ++
      [if w.runner.keepalive = true then RunnerCommandClose else RunnerCommandDestroy] ∧
    (exec o w).world.runner = w.runner ∧
    (exec o w).world.looping = w.looping ∧
    handle o RunnerCommandExec w = exec o w ∧
    (w.runner.iso ≠ none → w.runner.ctx ≠ none → w.runner.script ≠ none →
      (exec o w).returned = true) := by
  have hf := _exec_frame o w
  have hx := _exec_exits o w hch
  have hk : ∀ w1 : World, w1.runner = w.runner → w1.pending = w.pending →
      (if (!w1.runner.keepalive) = true then spawnSend RunnerCommandDestroy w1
        else spawnSend RunnerCommandClose w1).pending = w.pending ++
        [if w.runner.keepalive = true then RunnerCommandClose else RunnerCommandDestroy] := by
    intro w1 h1 h2
    rw [h1]
    cases w.runner.keepalive <;> simp [spawnSend, World.log, h2]
  have hr : ∀ w1 : World,
      (if (!w1.runner.keepalive) = true then spawnSend RunnerCommandDestroy w1
        else spawnSend RunnerCommandClose w1).runner = w1.runner := by
    intro w1
    cases w1.runner.keepalive <;> simp [spawnSend, World.log]
  have hl : ∀ w1 : World,
      (if (!w1.runner.keepalive) = true then spawnSend RunnerCommandDestroy w1
        else spawnSend RunnerCommandClose w1).looping = w1.looping := by
    intro w1
    cases w1.runner.keepalive <;> simp [spawnSend, World.log]
  refine ⟨?_, ?_, ?_, ?_, ?_, ?_⟩
  · cases hr1 : _exec o w with
    | ok a w1 => simp [exec, withDefer, hr1, Res.blocked]
    | panic f w1 => simp [exec, withDefer, hr1, Res.blocked]
    | block w1 => simp [hr1, Res.blocked] at hx
  · cases hr1 : _exec o w with
    | ok a w1 =>
      rw [hr1] at hf
      simpa [exec, withDefer, hr1, Res.world] using hk w1 hf.1 hf.2.2.1
    | panic f w1 =>
      rw [hr1] at hf
      simpa [exec, withDefer, hr1, Res.world] using hk w1 hf.1 hf.2.2.1
    | block w1 => simp [hr1, Res.blocked] at hx
  · cases hr1 : _exec o w with
    | ok a w1 =>
      rw [hr1] at hf
      simpa [exec, withDefer, hr1, Res.world] using (hr w1).trans hf.1
    | panic f w1 =>
      rw [hr1] at hf
      simpa [exec, withDefer, hr1, Res.world] using (hr w1).trans hf.1
    | block w1 => simp [hr1, Res.blocked] at hx
  · cases hr1 : _exec o w with
    | ok a w1 =>
      rw [hr1] at hf
      simpa [exec, withDefer, hr1, Res.world] using (hl w1).trans hf.2.2.2.1
    | panic f w1 =>
      rw [hr1] at hf
      simpa [exec, withDefer, hr1, Res.world] using (hl w1).trans hf.2.2.2.1
    | block w1 => simp [hr1, Res.blocked] at hx
  · simp [handle]
  · intro h1 h2 h3
    have h := hx.2 h1 h2 h3
    cases hr1 : _exec o w <;> simp [exec, withDefer, hr1, Res.returned] <;>
      simp [hr1, Res.returned] at h

/-- C8, on a keepalive runner whose top-level run fails and on a runner that is
not keepalive: one follow-up is left to send, and once sent it is in the mailbox. -/
theorem exec_follow_up_witness :
    (execWorld true).runner.chResp ≠ none ∧
    (exec runFails (execWorld true)).world.pending = (execWorld true).pending ++
      [if (execWorld true).runner.keepalive = true then RunnerCommandClose
        else RunnerCommandDestroy] ∧
    (exec allOk (execWorld false)).world.pending = (execWorld false).pending ++
      [if (execWorld false).runner.keepalive = true then RunnerCommandClose
        else RunnerCommandDestroy] ∧
    (runOps [.loop runFails, .deliver] (execWorld true)).world.runner.signal =
      some { buf := [RunnerCommandClose], closed := false } ∧
    (runOps [.loop allOk, .deliver] (execWorld false)).world.runner.signal =
      some { buf := [RunnerCommandDestroy], closed := false } :=
  ⟨by decide, (exec_follow_up runFails (execWorld true) (by decide)).2.1,
    (exec_follow_up allOk (execWorld false) (by decide)).2.1, by decide, by decide⟩

/-! ## Close -/

/-- C9: for a keepalive runner `close` is `reset`: the same outcome and the same
resulting world from every state, so the loop's close case and its reset case
agree; with context `c` and engine instance `i` both are disposed, a fresh
engine instance and a fresh context replace them, the status ends ready and
the registrar is called once. -/
theorem close_keepalive_is_reset (o : EngineOutcome) (w : World)
    (hk : w.runner.keepalive = true) :
    close w = reset w ∧
    handle o RunnerCommandClose w = handle o RunnerCommandReset w ∧
    (∀ c i : Nat, w.runner.ctx = some c → w.runner.iso = some i →
      close w = .ok ()
        { runner := { w.runner with
            iso := some w.next, ctx := some (w.next + 1), status := RunnerStatusReady },
          next := w.next + 2, pending := w.pending, looping := w.looping,
          trace := w.trace ++ [.status RunnerStatusDestroy, .ctxClose c, .isoDispose i,
            .newIsolate w.next, .makeTemplate w.next, .newContext w.next (w.next + 1),
            .status RunnerStatusReady, .online w.runner.id] }) := by
  have hc : close w = reset w := by simp [close, hk]
  refine ⟨hc, ?_, ?_⟩
  · simp [handle, hc]
  · intro c i hctx hiso
    rw [hc]
    obtain ⟨⟨rid, iso, ctx, st, signal, chResp, ka, script, method, sid, args, glob⟩,
      next, pending, looping, trace⟩ := w
    simp only at hctx hiso
    subst hctx hiso
    simp [reset, M.bind, setStatus, ctxClose, isoDispose, YaoNewIsolate, NewContext, online,
      World.log]

/-- C9, at a started keepalive runner on which `Exec` was called. -/
theorem close_keepalive_is_reset_witness :
    (execWorld true).runner.keepalive = true ∧
    close (execWorld true) = reset (execWorld true) ∧
    (close (execWorld true)).world.runner.status = RunnerStatusReady ∧
    onlineCount (close (execWorld true)).world.trace =
      onlineCount (execWorld true).trace + 1 :=
  ⟨by decide, (close_keepalive_is_reset allOk (execWorld true) (by decide)).1, by decide,
    by decide⟩

/-- C10, counterexample: on a started runner that is not keepalive, `close` and
`destory` reach different states: `destory` leaves status destroyed and keeps
the arguments, `close` leaves the status it found and clears the arguments. -/
theorem close_differs_from_destory :
    (close { execWorld false with runner := { (execWorld false).runner with args := some [1] } }
      ).world.runner ≠
    (destory { execWorld false with runner := { (execWorld false).runner with args := some [1] } }
      ).world.runner ∧
    (destory { execWorld false with runner := { (execWorld false).runner with args := some [1] } }
      ).world.runner.status = RunnerStatusDestroy ∧
    (close { execWorld false with runner := { (execWorld false).runner with args := some [1] } }
      ).world.runner.status = RunnerStatusRunning ∧
    (destory { execWorld false with runner := { (execWorld false).runner with args := some [1] } }
      ).world.runner.args = some [1] ∧
    (close { execWorld false with runner := { (execWorld false).runner with args := some [1] } }
      ).world.runner.args = none := by
  decide

/-- C10, amended: for a runner that is not keepalive, `close` tears down what
`destory` tears down: both return or fail alike, and they leave the same
mailbox, context, engine instance and every field other than status and
arguments, with the same engine calls and channel operations; from an open
mailbox, a context and an engine instance both return with the mailbox closed
and context and engine instance disposed and nil.  `close` also sets the
arguments to nil. -/
theorem close_not_keepalive_teardown (w : World) (hk : w.runner.keepalive = false) :
    (close w).returned = (destory w).returned ∧
    (close w).world.runner.signal = (destory w).world.runner.signal ∧
    (close w).world.runner.ctx = (destory w).world.runner.ctx ∧
    (close w).world.runner.iso = (destory w).world.runner.iso ∧
    (close w).world.runner.id = (destory w).world.runner.id ∧
    (close w).world.runner.keepalive = (destory w).world.runner.keepalive ∧
    (close w).world.runner.chResp = (destory w).world.runner.chResp ∧
    (close w).world.runner.script = (destory w).world.runner.script ∧
    (close w).world.runner.method = (destory w).world.runner.method ∧
    (close w).world.runner.sid = (destory w).world.runner.sid ∧
    (close w).world.runner.global = (destory w).world.runner.global ∧
    teardownEffects (close w).world.trace = teardownEffects (destory w).world.trace ∧
    ((close w).returned = true →
      (close w).world.runner.args = none ∧ (close w).world.runner.ctx = none ∧
      (close w).world.runner.iso = none ∧
      (destory w).world.runner.status = RunnerStatusDestroy) ∧
    (∀ (ch : Chan) (c i : Nat), w.runner.signal = some ch → ch.closed = false →
      w.runner.ctx = some c → w.runner.iso = some i →
      (close w).returned = true ∧
      (close w).world.runner.signal = some { buf := ch.buf, closed := true } ∧
      teardownEffects (close w).world.trace =
        teardownEffects w.trace ++ [.closeSignal, .ctxClose c, .isoDispose i]) := by
  obtain ⟨⟨rid, iso, ctx, st, signal, chResp, ka, script, method, sid, args, glob⟩,
    next, pending, looping, trace⟩ := w
  simp only at hk
  subst hk
  rcases signal with _ | ⟨buf, closed⟩ <;> cases iso <;> cases ctx <;> try cases closed
  all_goals
    simp [close, destory, M.bind, setStatus, closeSignal, ctxClose, isoDispose,
      World.log, Res.world, Res.returned, teardownEffects, List.filter_append]
  all_goals
    intro ch c i h1 h2 h3 h4
    subst h1 h3 h4
    simp_all

/-- C10, amended, at a started runner that is not keepalive. -/
theorem close_not_keepalive_teardown_witness :
    (execWorld false).runner.keepalive = false ∧
    (close (execWorld false)).returned = (destory (execWorld false)).returned ∧
    (close (execWorld false)).world.runner.signal =
      (destory (execWorld false)).world.runner.signal ∧
    (close (execWorld false)).world.runner.signal =
      some { buf := [RunnerCommandExec], closed := true } :=
  ⟨by decide, (close_not_keepalive_teardown (execWorld false) (by decide)).1,
    (close_not_keepalive_teardown (execWorld false) (by decide)).2.1, by decide⟩

/-! ## Clean and reset -/

/-- C11: on a started runner, with context `c` under engine instance `i`,
`clean` disposes the context only and builds a fresh one from the template
under the same engine instance, which it neither disposes nor replaces;
`reset` disposes both and builds a fresh engine instance and a fresh context
under it; both end with status ready. -/
theorem clean_keeps_iso_reset_replaces (w : World) (c i : Nat)
    (hctx : w.runner.ctx = some c) (hiso : w.runner.iso = some i) :
    clean w = .ok ()
      { runner := { w.runner with ctx := some w.next, status := RunnerStatusReady },
        next := w.next + 1, pending := w.pending, looping := w.looping,
        trace := w.trace ++ [.status RunnerStatusCleaning, .ctxClose c, .makeTemplate i,
          .newContext i w.next, .status RunnerStatusReady, .online w.runner.id] } ∧
    (clean w).world.runner.iso = some i ∧
    (clean w).world.runner.status = RunnerStatusReady ∧
    reset w = .ok ()
      { runner := { w.runner with
          iso := some w.next, ctx := some (w.next + 1), status := RunnerStatusReady },
        next := w.next + 2, pending := w.pending, looping := w.looping,
        trace := w.trace ++ [.status RunnerStatusDestroy, .ctxClose c, .isoDispose i,
          .newIsolate w.next, .makeTemplate w.next, .newContext w.next (w.next + 1),
          .status RunnerStatusReady, .online w.runner.id] } ∧
    (reset w).world.runner.status = RunnerStatusReady := by
  obtain ⟨⟨rid, iso, ctx, st, signal, chResp, ka, script, method, sid, args, glob⟩,
    next, pending, looping, trace⟩ := w
  simp only at hctx hiso
  subst hctx hiso
  simp [clean, reset, M.bind, setStatus, ctxClose, isoDispose, YaoNewIsolate, NewContext, online,
    World.log, Res.world]

/-- C11, at a started runner: the engine instance survives `clean` and not `reset`. -/
theorem clean_keeps_iso_reset_replaces_witness :
    (startedWorld true).runner.ctx = some 1 ∧ (startedWorld true).runner.iso = some 0 ∧
    (clean (startedWorld true)).world.runner.iso = some 0 ∧
    (clean (startedWorld true)).world.runner.ctx = some 2 ∧
    (reset (startedWorld true)).world.runner.iso = some 2 ∧
    (reset (startedWorld true)).world.runner.ctx = some 3 ∧
    (clean (startedWorld true)).world.runner.status = RunnerStatusReady :=
  ⟨by decide, by decide,
    (clean_keeps_iso_reset_replaces (startedWorld true) 1 0 (by decide) (by decide)).2.1,
    by decide, by decide, by decide,
    (clean_keeps_iso_reset_replaces (startedWorld true) 1 0 (by decide) (by decide)).2.2.1⟩

set_option maxHeartbeats 1600000 in
/-- The effects of `_exec` are appended to the trace, and each is an engine or
bridge call on the runner's own handles and request fields or a send on its
correlation channel. -/
theorem _exec_effects (o : EngineOutcome) (w : World) :
    (_exec o w).world.trace.take w.trace.length = w.trace ∧
    ∀ e ∈ (_exec o w).world.trace.drop w.trace.length, Event.ofExec w.runner e = true := by
  obtain ⟨⟨rid, iso, ctx, st, signal, chResp, ka, script, method, sid, args, glob⟩,
    next, pending, looping, trace⟩ := w
  obtain ⟨ce, re, se, ae, cle, ge, gr⟩ := o
  rcases iso with _ | i
  · simp [_exec, M.bind, CompileUnboundScript, Res.world]
  rcases script with _ | s
  · simp [_exec, M.bind, CompileUnboundScript, Res.world]
  rcases ce with _ | e
  swap
  · cases chResp <;>
      simp [_exec, M.bind, CompileUnboundScript, sendResp, World.log, Res.world, Event.ofExec]
  rcases ctx with _ | c
  · simp [_exec, M.bind, CompileUnboundScript, Run, World.log, Res.world, Event.ofExec]
  cases chResp <;> cases re <;> cases se <;> cases ae <;> cases cle <;> cases ge <;>
    simp [_exec, M.bind, CompileUnboundScript, Run, SetShareData, JsValues, MethodCall, GoValue,
      sendResp, withDefer, World.log, Res.world, Event.ofExec]

/-- Effects of `_exec` include no status write and no registrar call. -/
theorem ofExec_observations (r : Runner) (evs : List Event)
    (h : ∀ e ∈ evs, Event.ofExec r e = true) :
    statusWrites evs = [] ∧ onlineCount evs = 0 := by
  induction evs with
  | nil => simp [statusWrites, onlineCount]
  | cons e evs ih =>
    have he := h e (List.mem_cons_self _ _)
    have ht := ih (fun e1 h1 => h e1 (List.mem_cons_of_mem _ h1))
    cases e <;> simp [Event.ofExec] at he <;>
      simpa [statusWrites, onlineCount, List.filterMap_cons, List.countP_cons] using ht

/-- With engine instance, context, script and correlation channel in place,
`_exec` returns, and all it does is append its effects to the trace. -/
theorem _exec_ok (o : EngineOutcome) (w : World)
    (hiso : w.runner.iso ≠ none) (hctx : w.runner.ctx ≠ none)
    (hscript : w.runner.script ≠ none) (hch : w.runner.chResp ≠ none) :
    ∃ evs, _exec o w = .ok () { w with trace := w.trace ++ evs } ∧
      ∀ e ∈ evs, Event.ofExec w.runner e = true := by
  have hx := (_exec_exits o w hch).2 hiso hctx hscript
  have hf := _exec_frame o w
  have he := _exec_effects o w
  cases hr : _exec o w with
  | ok a w2 =>
    rw [hr] at hf he
    simp only [Res.world] at hf he
    refine ⟨w2.trace.drop w.trace.length, ?_, he.2⟩
    obtain ⟨r2, n2, p2, l2, t2⟩ := w2
    obtain ⟨h1, h2, h3, h4, _⟩ := hf
    simp only at h1 h2 h3 h4 he
    subst h1 h2 h3 h4
    have ht : t2 = w.trace ++ t2.drop w.trace.length := by
      conv_lhs => rw [← List.take_append_drop w.trace.length t2, he.1]
    rw [← ht]
  | panic f w2 => simp [hr, Res.returned] at hx
  | block w2 => simp [hr, Res.returned] at hx

/-- One Execute cycle on an idle keepalive runner: the world it reaches. -/
theorem cycle_keepalive (s : Script) (o : EngineOutcome) (w : World) (c i : Nat)
    (hk : w.runner.keepalive = true)
    (hctx : w.runner.ctx = some c) (hiso : w.runner.iso = some i)
    (hsig : w.runner.signal = some { buf := [], closed := false })
    (hpend : w.pending = []) (hloop : w.looping = true) :
    ∃ evs, runOps (cycle s o) w = .ok ()
      { runner := { w.runner with
          status := RunnerStatusReady, script := some s, chResp := some w.next,
          iso := some (w.next + 1), ctx := some (w.next + 2) },
        next := w.next + 3, pending := [], looping := true,
        trace := w.trace ++ [.status RunnerStatusRunning, .makeResp w.next,
            .send RunnerCommandExec, .recv RunnerCommandExec] ++ evs ++
          [.go RunnerCommandClose, .send RunnerCommandClose, .recv RunnerCommandClose,
            .status RunnerStatusDestroy, .ctxClose c, .isoDispose i,
            .newIsolate (w.next + 1), .makeTemplate (w.next + 1),
            .newContext (w.next + 1) (w.next + 2), .status RunnerStatusReady,
            .online w.runner.id] } ∧
      ∀ e ∈ evs, Event.ofExec
        { w.runner with
          status := RunnerStatusRunning, script := some s, chResp := some w.next } e = true := by
  obtain ⟨⟨rid, iso, ctx, st, signal, chResp, ka, script, method, sid, args, glob⟩,
    next, pending, looping, trace⟩ := w
  simp only at hk hctx hiso hsig hpend hloop
  subst hk hctx hiso hsig hpend hloop
  obtain ⟨evs, hx, hev⟩ := _exec_ok o
    { runner :=
        { id := rid, iso := some i, ctx := some c, status := RunnerStatusRunning,
          signal := some { buf := [], closed := false }, chResp := some next, keepalive := true,
          script := some s, method := method, sid := sid, args := args, global := glob },
      next := next + 1, pending := [], looping := true,
      trace := trace ++ [.status RunnerStatusRunning, .makeResp next,
        .send RunnerCommandExec, .recv RunnerCommandExec] }
    (by simp) (by simp) (by simp) (by simp)
  refine ⟨evs, ?_, ?_⟩
  · simp [cycle, runOps, Op.run, park, Exec, M.bind, setStatus, sendSignal, World.log, loopStep,
      handle, exec, withDefer, hx, spawnSend, deliver, close, reset, ctxClose, isoDispose,
      YaoNewIsolate, NewContext, online]
  · intro e he
    have h := hev e he
    cases e <;> simp [Event.ofExec] at h ⊢ <;> simp [h]

/-- One Execute cycle on an idle runner that is not keepalive: the world it
reaches. -/
theorem cycle_not_keepalive (s : Script) (o : EngineOutcome) (w : World) (c i : Nat)
    (hk : w.runner.keepalive = false)
    (hctx : w.runner.ctx = some c) (hiso : w.runner.iso = some i)
    (hsig : w.runner.signal = some { buf := [], closed := false })
    (hpend : w.pending = []) (hloop : w.looping = true) :
    ∃ evs, runOps (cycle s o) w = .ok ()
      { runner := { w.runner with
          status := RunnerStatusDestroy, script := some s, chResp := some w.next,
          iso := none, ctx := none, signal := some { buf := [], closed := true } },
        next := w.next + 1, pending := [], looping := false,
        trace := w.trace ++ [.status RunnerStatusRunning, .makeResp w.next,
            .send RunnerCommandExec, .recv RunnerCommandExec] ++ evs ++
          [.go RunnerCommandDestroy, .send RunnerCommandDestroy, .recv RunnerCommandDestroy,
            .status RunnerStatusDestroy, .closeSignal, .ctxClose c, .isoDispose i] } ∧
      ∀ e ∈ evs, Event.ofExec
        { w.runner with
          status := RunnerStatusRunning, script := some s, chResp := some w.next } e = true := by
  obtain ⟨⟨rid, iso, ctx, st, signal, chResp, ka, script, method, sid, args, glob⟩,
    next, pending, looping, trace⟩ := w
  simp only at hk hctx hiso hsig hpend hloop
  subst hk hctx hiso hsig hpend hloop
  obtain ⟨evs, hx, hev⟩ := _exec_ok o
    { runner :=
        { id := rid, iso := some i, ctx := some c, status := RunnerStatusRunning,
          signal := some { buf := [], closed := false }, chResp := some next, keepalive := false,
          script := some s, method := method, sid := sid, args := args, global := glob },
      next := next + 1, pending := [], looping := true,
      trace := trace ++ [.status RunnerStatusRunning, .makeResp next,
        .send RunnerCommandExec, .recv RunnerCommandExec] }
    (by simp) (by simp) (by simp) (by simp)
  refine ⟨evs, ?_, ?_⟩
  · simp [cycle, runOps, Op.run, park, Exec, M.bind, setStatus, sendSignal, World.log, loopStep,
      handle, exec, withDefer, hx, spawnSend, deliver, destory, closeSignal, ctxClose, isoDispose]
  · intro e he
    have h := hev e he
    cases e <;> simp [Event.ofExec] at h ⊢ <;> simp [h]

/-- Operations after a sequence that returned go on from the world it reached. -/
theorem runOps_append (ops1 ops2 : List Op) (w w1 : World)
    (h : runOps ops1 w = .ok () w1) : runOps (ops1 ++ ops2) w = runOps ops2 w1 := by
  induction ops1 generalizing w with
  | nil =>
    simp only [runOps, Res.ok.injEq, true_and] at h
    simp [h]
  | cons op ops ih =>
    simp only [List.cons_append, runOps] at h ⊢
    cases hr : op.run w with
    | ok a w2 =>
      rw [hr] at h
      exact ih w2 h
    | block w2 =>
      rw [hr] at h
      exact ih w2 h
    | panic f w2 =>
      rw [hr] at h
      simp at h

/-- Effects of `_exec` on a runner whose context is not `c` leave the history
of `c` empty. -/
theorem ofExec_ctxHistory (r : Runner) (c : Nat) (evs : List Event)
    (hc : r.ctx ≠ some c) (h : ∀ e ∈ evs, Event.ofExec r e = true) :
    ctxHistory c evs = [] := by
  induction evs with
  | nil => simp [ctxHistory]
  | cons e evs ih =>
    have he := h e (List.mem_cons_self _ _)
    have ht := ih (fun e1 h1 => h e1 (List.mem_cons_of_mem _ h1))
    have hne : ∀ c1 : Nat, r.ctx = some c1 → c1 ≠ c := by
      intro c1 h1 h2
      exact hc (h2 ▸ h1)
    cases e <;> simp [Event.ofExec] at he <;>
      simp only [ctxHistory, List.filter_cons] at ht ⊢ <;>
      simp [ht, hne, he]

/-! ## The Execute cycle -/

/-- C12, counterexample: on a started keepalive runner the status writes of one
Execute cycle are running, destroyed, ready: the cycle passes through a status
that is neither running nor ready. -/
theorem keepalive_cycle_passes_destroyed :
    (startedWorld true).runner.keepalive = true ∧
    (startedWorld true).runner.status = RunnerStatusReady ∧
    statusWrites (runOps (cycle sampleScript allOk) (startedWorld true)).world.trace =
      statusWrites (startedWorld true).trace ++
        [RunnerStatusRunning, RunnerStatusDestroy, RunnerStatusReady] ∧
    RunnerStatusDestroy ≠ RunnerStatusRunning ∧ RunnerStatusDestroy ≠ RunnerStatusReady := by
  decide

/-- C12, amended: for an idle keepalive runner in status ready, every script and
every engine outcome, one Execute cycle returns with status ready; the status
writes of the cycle are running (by `Exec`), then destroyed and ready (both by
`reset`, reached from `close`), and the registrar is called once. -/
theorem keepalive_cycle_status (s : Script) (o : EngineOutcome) (w : World) (c i : Nat)
    (hk : w.runner.keepalive = true) (hst : w.runner.status = RunnerStatusReady)
    (hctx : w.runner.ctx = some c) (hiso : w.runner.iso = some i)
    (hsig : w.runner.signal = some { buf := [], closed := false })
    (hpend : w.pending = []) (hloop : w.looping = true) :
    (runOps (cycle s o) w).returned = true ∧
    (runOps (cycle s o) w).world.runner.status = w.runner.status ∧
    statusWrites (runOps (cycle s o) w).world.trace =
      statusWrites w.trace ++ [RunnerStatusRunning, RunnerStatusDestroy, RunnerStatusReady] ∧
    onlineCount (runOps (cycle s o) w).world.trace = onlineCount w.trace + 1 := by
  obtain ⟨evs, hr, hev⟩ := cycle_keepalive s o w c i hk hctx hiso hsig hpend hloop
  obtain ⟨h1, h2⟩ := ofExec_observations _ evs hev
  rw [hr]
  refine ⟨rfl, ?_, ?_, ?_⟩
  · simp [Res.world, hst]
  · simp only [Res.world, statusWrites, List.filterMap_append] at h1 ⊢
    simp [h1]
  · simp only [Res.world, onlineCount, List.countP_append] at h2 ⊢
    simp [h2]

/-- C12, amended, at a started keepalive runner whose script fails to compile. -/
theorem keepalive_cycle_status_witness :
    (runOps (cycle sampleScript { allOk with compileErr := some 3 })
      (startedWorld true)).returned = true ∧
    (runOps (cycle sampleScript { allOk with compileErr := some 3 })
      (startedWorld true)).world.runner.status = (startedWorld true).runner.status ∧
    statusWrites (runOps (cycle sampleScript { allOk with compileErr := some 3 })
      (startedWorld true)).world.trace =
      statusWrites (startedWorld true).trace ++
        [RunnerStatusRunning, RunnerStatusDestroy, RunnerStatusReady] ∧
    onlineCount (runOps (cycle sampleScript { allOk with compileErr := some 3 })
      (startedWorld true)).world.trace = onlineCount (startedWorld true).trace + 1 :=
  keepalive_cycle_status sampleScript { allOk with compileErr := some 3 } (startedWorld true) 1 0
    (by decide) (by decide) (by decide) (by decide) (by decide) (by decide) (by decide)

/-- C13: for an idle runner that is not keepalive, with context `c` and engine
instance `i`, one Execute cycle returns with both disposed and nil, status
destroyed, the mailbox closed and the command loop returned: a further pass of
the loop does nothing. -/
theorem not_keepalive_cycle_destroys (s : Script) (o o2 : EngineOutcome) (w : World) (c i : Nat)
    (hk : w.runner.keepalive = false) (hst : w.runner.status = RunnerStatusReady)
    (hctx : w.runner.ctx = some c) (hiso : w.runner.iso = some i)
    (hsig : w.runner.signal = some { buf := [], closed := false })
    (hpend : w.pending = []) (hloop : w.looping = true) :
    (runOps (cycle s o) w).returned = true ∧
    (runOps (cycle s o) w).world.runner.ctx = none ∧
    (runOps (cycle s o) w).world.runner.iso = none ∧
    (runOps (cycle s o) w).world.runner.status = RunnerStatusDestroy ∧
    (runOps (cycle s o) w).world.runner.signal = some { buf := [], closed := true } ∧
    (runOps (cycle s o) w).world.looping = false ∧
    (runOps (cycle s o) w).world.pending = [] ∧
    [.status RunnerStatusDestroy, .closeSignal, .ctxClose c, .isoDispose i] <:+
      (runOps (cycle s o) w).world.trace ∧
    loopStep o2 (runOps (cycle s o) w).world = .ok () (runOps (cycle s o) w).world ∧
    w.runner.status ≠ RunnerStatusDestroy := by
  obtain ⟨evs, hr, hev⟩ := cycle_not_keepalive s o w c i hk hctx hiso hsig hpend hloop
  rw [hr]
  refine ⟨rfl, rfl, rfl, rfl, rfl, rfl, rfl, ?_, ?_, ?_⟩
  · exact ⟨w.trace ++ [.status RunnerStatusRunning, .makeResp w.next,
      .send RunnerCommandExec, .recv RunnerCommandExec] ++ evs ++
      [.go RunnerCommandDestroy, .send RunnerCommandDestroy, .recv RunnerCommandDestroy],
      by simp [Res.world]⟩
  · simp [Res.world, loopStep]
  · simp [hst]

/-- C13, at a started runner that is not keepalive whose top-level run fails. -/
theorem not_keepalive_cycle_destroys_witness :
    (runOps (cycle sampleScript runFails) (startedWorld false)).returned = true ∧
    (runOps (cycle sampleScript runFails) (startedWorld false)).world.runner.ctx = none ∧
    (runOps (cycle sampleScript runFails) (startedWorld false)).world.runner.iso = none ∧
    (runOps (cycle sampleScript runFails) (startedWorld false)).world.runner.status =
      RunnerStatusDestroy ∧
    (runOps (cycle sampleScript runFails) (startedWorld false)).world.looping = false :=
  ⟨(not_keepalive_cycle_destroys sampleScript runFails allOk (startedWorld false) 1 0
      (by decide) (by decide) (by decide) (by decide) (by decide) (by decide) (by decide)).1,
    by decide, by decide, by decide, by decide⟩

/-! ## The context of the second Execute -/

/-- C14: take an idle started runner and two runs that differ in the first
script and in the engine outcomes it meets.  After the first Execute cycle has
completed and the second `Exec` has been called, the two runs agree on every
field of the runner, on the allocator, on the waiting goroutines and on the
loop.  For a keepalive runner the second Execute finds the context that `reset`
created from the template, and in both runs the history of that context is its
creation alone: no call of the first Execute was made in it.  For a runner that
is not keepalive there is no context left, and the second `Exec` faults on the
closed mailbox in both runs. -/
theorem second_exec_context (s1 s1' s2 : Script) (o1 o1' : EngineOutcome) (w : World) (c i : Nat)
    (hctx : w.runner.ctx = some c) (hiso : w.runner.iso = some i)
    (hsig : w.runner.signal = some { buf := [], closed := false })
    (hpend : w.pending = []) (hloop : w.looping = true)
    (hc : c < w.next) (hfresh : ctxHistory (w.next + 2) w.trace = []) :
    (runOps (cycle s1 o1 ++ [.Exec s2]) w).world.runner =
      (runOps (cycle s1' o1' ++ [.Exec s2]) w).world.runner ∧
    (runOps (cycle s1 o1 ++ [.Exec s2]) w).world.next =
      (runOps (cycle s1' o1' ++ [.Exec s2]) w).world.next ∧
    (runOps (cycle s1 o1 ++ [.Exec s2]) w).world.pending =
      (runOps (cycle s1' o1' ++ [.Exec s2]) w).world.pending ∧
    (runOps (cycle s1 o1 ++ [.Exec s2]) w).world.looping =
      (runOps (cycle s1' o1' ++ [.Exec s2]) w).world.looping ∧
    (runOps (cycle s1 o1 ++ [.Exec s2]) w).returned =
      (runOps (cycle s1' o1' ++ [.Exec s2]) w).returned ∧
    (w.runner.keepalive = true →
      (runOps (cycle s1 o1 ++ [.Exec s2]) w).returned = true ∧
      (runOps (cycle s1 o1 ++ [.Exec s2]) w).world.runner.ctx = some (w.next + 2) ∧
      (runOps (cycle s1 o1 ++ [.Exec s2]) w).world.runner.script = some s2 ∧
      ctxHistory (w.next + 2) (runOps (cycle s1 o1 ++ [.Exec s2]) w).world.trace =
        [.newContext (w.next + 1) (w.next + 2)] ∧
      ctxHistory (w.next + 2) (runOps (cycle s1' o1' ++ [.Exec s2]) w).world.trace =
        [.newContext (w.next + 1) (w.next + 2)]) ∧
    (w.runner.keepalive = false →
      (runOps (cycle s1 o1 ++ [.Exec s2]) w).returned = false ∧
      (runOps (cycle s1 o1 ++ [.Exec s2]) w).world.runner.ctx = none) := by
  have hne : c ≠ w.next + 2 := by omega
  cases hk : w.runner.keepalive with
  | true =>
    obtain ⟨evs, hr, hev⟩ := cycle_keepalive s1 o1 w c i hk hctx hiso hsig hpend hloop
    obtain ⟨evs', hr', hev'⟩ := cycle_keepalive s1' o1' w c i hk hctx hiso hsig hpend hloop
    have h1 := ofExec_ctxHistory _ (w.next + 2) evs (by simp [hctx, hne]) hev
    have h1' := ofExec_ctxHistory _ (w.next + 2) evs' (by simp [hctx, hne]) hev'
    rw [runOps_append _ _ _ _ hr, runOps_append _ _ _ _ hr']
    simp only [ctxHistory, List.filter_append] at h1 h1' hfresh ⊢
    simp [runOps, Op.run, park, Exec, M.bind, setStatus, sendSignal, World.log, Res.world,
      Res.returned, hsig, h1, h1', hfresh, hne]
  | false =>
    obtain ⟨evs, hr, hev⟩ := cycle_not_keepalive s1 o1 w c i hk hctx hiso hsig hpend hloop
    obtain ⟨evs', hr', hev'⟩ := cycle_not_keepalive s1' o1' w c i hk hctx hiso hsig hpend hloop
    rw [runOps_append _ _ _ _ hr, runOps_append _ _ _ _ hr']
    simp [runOps, Op.run, park, Exec, M.bind, setStatus, sendSignal, World.log, Res.world,
      Res.returned]

/-- C14, at a started keepalive runner: a first script that runs to its end
against a first script that fails to compile. -/
theorem second_exec_context_witness :
    (runOps (cycle sampleScript allOk ++ [.Exec sampleScript]) (startedWorld true)).world.runner =
      (runOps (cycle { sampleScript with Source := "x = 1" } { allOk with compileErr := some 3 } ++
        [.Exec sampleScript]) (startedWorld true)).world.runner ∧
    ctxHistory ((startedWorld true).next + 2)
      (runOps (cycle sampleScript allOk ++ [.Exec sampleScript]) (startedWorld true)).world.trace =
        [.newContext ((startedWorld true).next + 1) ((startedWorld true).next + 2)] :=
  ⟨(second_exec_context sampleScript { sampleScript with Source := "x = 1" } sampleScript allOk
      { allOk with compileErr := some 3 } (startedWorld true) 1 0
      (by decide) (by decide) (by decide) (by decide) (by decide) (by decide) (by decide)).1,
    ((second_exec_context sampleScript { sampleScript with Source := "x = 1" } sampleScript allOk
      { allOk with compileErr := some 3 } (startedWorld true) 1 0
      (by decide) (by decide) (by decide) (by decide) (by decide) (by decide) (by decide)).2.2.2.2.2.1
      (by decide)).2.2.2.1⟩

/-! ## NewRunner -/

/-- The runner created by the call number `i` (from 0) of a sequence of
`NewRunner` calls is the one a single call would create from counter `seq + i`. -/
theorem newRunners_getElem (bits : Nat) (ks : List Bool) (seq i : Nat) :
    (newRunners bits seq ks)[i]? = (ks[i]?).map fun k => (NewRunner bits (seq + i) k).2 := by
  induction ks generalizing seq i with
  | nil => simp [newRunners]
  | cons k ks ih =>
    cases i with
    | zero => simp [newRunners]
    | succ i =>
      simp only [newRunners, List.getElem?_cons_succ, ih]
      cases ks[i]? with
      | none => rfl
      | some k1 =>
        have h : ((seq + 1) % 2 ^ bits + i + 1) % 2 ^ bits = (seq + (i + 1) + 1) % 2 ^ bits := by
          rw [Nat.add_assoc, Nat.mod_add_mod]
          congr 1
          omega
        simp [NewRunner, h]

/-- C15, counterexample: with a 64-bit counter starting at 0, the first runner
and the one created 2^64 calls later both get id 1. -/
theorem newRunner_ids_repeat :
    ((newRunners 64 0 (List.replicate (2 ^ 64 + 1) false))[0]?).map Runner.id = some 1 ∧
    ((newRunners 64 0 (List.replicate (2 ^ 64 + 1) false))[2 ^ 64]?).map Runner.id = some 1 := by
  constructor
  · rw [newRunners_getElem, List.getElem?_replicate, if_pos (by omega)]
    rfl
  · rw [newRunners_getElem, List.getElem?_replicate, if_pos (by omega)]
    simp [NewRunner]

/-- C15, amended: `NewRunner` returns a runner with status init, the given
keepalive flag, no context and no engine instance, whose id is the counter
plus one modulo 2^bits; in a sequence of calls each id is the previous id plus
one modulo 2^bits, and two runners created fewer than 2^bits calls apart have
different ids. -/
theorem newRunner_ids (bits seq : Nat) (ks : List Bool) (i j : Nat) (ri rj : Runner)
    (hi : (newRunners bits seq ks)[i]? = some ri) (hj : (newRunners bits seq ks)[j]? = some rj)
    (hij : i < j) (hd : j - i < 2 ^ bits) :
    ri.id ≠ rj.id ∧
    ri.id = (seq + i + 1) % 2 ^ bits ∧
    (j = i + 1 → rj.id = (ri.id + 1) % 2 ^ bits) ∧
    ri.status = RunnerStatusInit ∧ ks[i]? = some ri.keepalive ∧
    ri.ctx = none ∧ ri.iso = none ∧
    (∀ k : Bool, (NewRunner bits seq k).2.id = (seq + 1) % 2 ^ bits ∧
      (NewRunner bits seq k).1 = (NewRunner bits seq k).2.id ∧
      (NewRunner bits seq k).2.keepalive = k ∧
      (NewRunner bits seq k).2.status = RunnerStatusInit ∧
      (NewRunner bits seq k).2.ctx = none ∧ (NewRunner bits seq k).2.iso = none) := by
  rw [newRunners_getElem] at hi hj
  cases hki : ks[i]? with
  | none => simp [hki] at hi
  | some ki =>
    cases hkj : ks[j]? with
    | none => simp [hkj] at hj
    | some kj =>
      simp only [hki, hkj, Option.map_some', Option.some.injEq] at hi hj
      subst hi hj
      refine ⟨?_, rfl, ?_, rfl, rfl, rfl, rfl, fun k => ⟨rfl, rfl, rfl, rfl, rfl, rfl⟩⟩
      · intro h
        simp only [NewRunner] at h
        have hm : (seq + i + 1) ≡ (seq + j + 1) [MOD 2 ^ bits] := h
        have hdvd : 2 ^ bits ∣ (seq + j + 1) - (seq + i + 1) :=
          (Nat.modEq_iff_dvd' (by omega)).1 hm
        have hle := Nat.le_of_dvd (by omega) hdvd
        omega
      · intro hj1
        subst hj1
        simp only [NewRunner]
        rw [Nat.mod_add_mod]
        congr 1

/-- C15, amended, at three runners created in a row on a 64-bit counter. -/
theorem newRunner_ids_witness :
    (newRunners 64 0 [true, false, true])[0]? = some (NewRunner 64 0 true).2 ∧
    (newRunners 64 0 [true, false, true])[2]? = some (NewRunner 64 2 true).2 ∧
    (NewRunner 64 0 true).2.id ≠ (NewRunner 64 2 true).2.id ∧
    (NewRunner 64 0 true).2.id = (0 + 0 + 1) % 2 ^ 64 :=
  ⟨by decide, by decide,
    (newRunner_ids 64 0 [true, false, true] 0 2 (NewRunner 64 0 true).2 (NewRunner 64 2 true).2
      (by decide) (by decide) (by decide) (by decide)).1,
    (newRunner_ids 64 0 [true, false, true] 0 2 (NewRunner 64 0 true).2 (NewRunner 64 2 true).2
      (by decide) (by decide) (by decide) (by decide)).2.1⟩

/-! ## The status command -/

/-- C16, counterexample: the loop's pass on a status command records the receive
and nothing else: no value is sent to anyone. -/
theorem status_command_unanswered :
    (loopStep allOk statusQueryWorld).world.trace =
      statusQueryWorld.trace ++ [.recv RunnerCommandStatus] ∧
    responses (loopStep allOk statusQueryWorld).world.trace = [] ∧
    (loopStep allOk statusQueryWorld).world.pending = [] := by
  decide

/-- C16, amended: the loop has no case for the status command, which falls to
the default case: the handler changes nothing at all (status, context, engine
instance, mailbox, request fields, effects), sends nothing, and the loop keeps
running; the pass of the loop only takes the command out of the mailbox. -/
theorem status_command_ignored (o : EngineOutcome) (w : World) :
    handle o RunnerCommandStatus w = .ok () w ∧
    (∀ (rest : List Nat) (closed : Bool), w.looping = true →
      w.runner.signal = some { buf := RunnerCommandStatus :: rest, closed := closed } →
      loopStep o w = .ok ()
        { w with
          runner := { w.runner with signal := some { buf := rest, closed := closed } },
          trace := w.trace ++ [.recv RunnerCommandStatus] }) := by
  refine ⟨by simp [handle], ?_⟩
  intro rest closed hloop hsig
  simp [loopStep, hloop, hsig, handle, World.log]

/-! ## The outcome of the exec handler, stage by stage -/

/-- C17: for a runner with engine instance, context, script and correlation
channel, `_exec` runs the stages in the order compile, top-level run, share
data, arguments, method call, result, up to and including the first failing
one and no further.  It sends the failure of the first failing stage, or the
marshalled result when all succeed, with one exception: when the top-level
run is the first failing stage it sends nothing. -/
theorem exec_outcome_by_stage (o : EngineOutcome) (w : World)
    (hiso : w.runner.iso ≠ none) (hctx : w.runner.ctx ≠ none)
    (hscript : w.runner.script ≠ none) (hch : w.runner.chResp ≠ none) :
    stagesRun (_exec o w).world.trace = stagesRun w.trace ++ specStages o ∧
    responses (_exec o w).world.trace = responses w.trace ++
      (if o.compileErr = none ∧ o.runErr ≠ none then [] else [specOutcome o]) := by
  obtain ⟨⟨rid, iso, ctx, st, signal, chResp, ka, script, method, sid, args, glob⟩,
    next, pending, looping, trace⟩ := w
  obtain ⟨ce, re, se, ae, cle, ge, gr⟩ := o
  cases iso <;> cases ctx <;> cases script <;> cases chResp <;> simp at hiso hctx hscript hch
  cases ce <;> cases re <;> cases se <;> cases ae <;> cases cle <;> cases ge <;>
    simp [_exec, M.bind, CompileUnboundScript, Run, SetShareData, JsValues, MethodCall, GoValue,
      sendResp, withDefer, World.log, Res.world, stagesRun, responses, specStages, specOutcome,
      List.filterMap_append, Event.stage]

/-- C17, at the failing input: the script compiles, its top-level run fails with
error 7; the stages run are compile and run, and nothing is sent. -/
theorem exec_outcome_by_stage_witness :
    stagesRun (_exec runFails (execWorld true)).world.trace =
      stagesRun (execWorld true).trace ++ specStages runFails ∧
    responses (_exec runFails (execWorld true)).world.trace = responses (execWorld true).trace ++
      (if runFails.compileErr = none ∧ runFails.runErr ≠ none then [] else [specOutcome runFails]) ∧
    specOutcome runFails = .err 7 ∧
    responses (_exec runFails (execWorld true)).world.trace = [] :=
  ⟨(exec_outcome_by_stage runFails (execWorld true) (by decide) (by decide) (by decide)
      (by decide)).1,
    (exec_outcome_by_stage runFails (execWorld true) (by decide) (by decide) (by decide)
      (by decide)).2, by decide, by decide⟩

/-! ## The request fields -/

/-- An effect of `_exec` on a runner with blank request fields is blank. -/
theorem ofExec_blank (r : Runner) (e : Event) (hr : r.blank = true)
    (he : Event.ofExec r e = true) : e.blank = true := by
  simp only [Runner.blank, decide_eq_true_eq] at hr
  obtain ⟨h1, h2, h3, h4⟩ := hr
  cases e <;> simp [Event.ofExec] at he <;> simp [Event.blank, he, h1, h2, h3, h4]

/-- The handler `_exec` keeps the request fields and the effects blank. -/
theorem _exec_blank (o : EngineOutcome) (w : World) (h : w.blank = true) :
    (_exec o w).world.blank = true := by
  have hf := _exec_frame o w
  have he := _exec_effects o w
  simp only [World.blank, Bool.and_eq_true] at h ⊢
  refine ⟨by rw [hf.1]; exact h.1, ?_⟩
  rw [← List.take_append_drop w.trace.length (_exec o w).world.trace, List.all_append, he.1,
    Bool.and_eq_true]
  refine ⟨h.2, ?_⟩
  rw [List.all_eq_true]
  intro e hmem
  exact ofExec_blank w.runner e h.1 (he.2 e hmem)

/-- The handlers of the loop keep the request fields and the effects blank. -/
theorem handlers_blank (o : EngineOutcome) (w : World) (h : w.blank = true) :
    (reset w).world.blank = true ∧ (clean w).world.blank = true ∧
    (close w).world.blank = true ∧ (destory w).world.blank = true ∧
    (exec o w).world.blank = true := by
  have hx := _exec_blank o w h
  have hreset : (reset w).world.blank = true := by
    obtain ⟨⟨rid, iso, ctx, st, signal, chResp, ka, script, method, sid, args, glob⟩,
      next, pending, looping, trace⟩ := w
    simp only [World.blank, Runner.blank, Bool.and_eq_true, decide_eq_true_eq] at h
    cases iso <;> cases ctx <;>
      simp [reset, M.bind, setStatus, ctxClose, isoDispose, YaoNewIsolate, NewContext, online,
        World.log, Res.world, World.blank, Runner.blank, Event.blank, List.all_append, h]
  refine ⟨hreset, ?_, ?_, ?_, ?_⟩
  · obtain ⟨⟨rid, iso, ctx, st, signal, chResp, ka, script, method, sid, args, glob⟩,
      next, pending, looping, trace⟩ := w
    simp only [World.blank, Runner.blank, Bool.and_eq_true, decide_eq_true_eq] at h
    cases iso <;> cases ctx <;>
      simp [clean, M.bind, setStatus, ctxClose, NewContext, online,
        World.log, Res.world, World.blank, Runner.blank, Event.blank, List.all_append, h]
  · by_cases hk : w.runner.keepalive = true
    · have hc : close w = reset w := by simp [close, hk]
      rw [hc]
      exact hreset
    · obtain ⟨⟨rid, iso, ctx, st, signal, chResp, ka, script, method, sid, args, glob⟩,
        next, pending, looping, trace⟩ := w
      simp only [Bool.not_eq_true] at hk
      subst hk
      simp only [World.blank, Runner.blank, Bool.and_eq_true, decide_eq_true_eq] at h
      rcases signal with _ | ⟨buf, closed⟩ <;> cases iso <;> cases ctx <;> try cases closed
      all_goals
        simp [close, M.bind, closeSignal, ctxClose, isoDispose,
          World.log, Res.world, World.blank, Runner.blank, Event.blank, List.all_append, h]
  · obtain ⟨⟨rid, iso, ctx, st, signal, chResp, ka, script, method, sid, args, glob⟩,
      next, pending, looping, trace⟩ := w
    simp only [World.blank, Runner.blank, Bool.and_eq_true, decide_eq_true_eq] at h
    rcases signal with _ | ⟨buf, closed⟩ <;> cases iso <;> cases ctx <;> try cases closed
    all_goals
      simp [destory, M.bind, setStatus, closeSignal, ctxClose, isoDispose,
        World.log, Res.world, World.blank, Runner.blank, Event.blank, List.all_append, h]
  · have hs : ∀ w1 : World, w1.blank = true →
        (if (!w1.runner.keepalive) = true then spawnSend RunnerCommandDestroy w1
          else spawnSend RunnerCommandClose w1).blank = true := by
      intro w1 h1
      simp only [World.blank, Bool.and_eq_true] at h1
      cases w1.runner.keepalive <;>
        simp [spawnSend, World.log, World.blank, List.all_append, Event.blank, h1]
    unfold exec withDefer
    cases hr : _exec o w with
    | ok a w1 =>
      rw [hr] at hx
      exact hs w1 hx
    | panic f w1 =>
      rw [hr] at hx
      exact hs w1 hx
    | block w1 =>
      rw [hr] at hx
      exact hx

/-- A send on the mailbox keeps the request fields and the effects blank. -/
theorem sendSignal_blank (cmd : Nat) (w : World) (h : w.blank = true) :
    (sendSignal cmd w).world.blank = true := by
  obtain ⟨⟨rid, iso, ctx, st, signal, chResp, ka, script, method, sid, args, glob⟩,
    next, pending, looping, trace⟩ := w
  simp only [World.blank, Runner.blank, Bool.and_eq_true, decide_eq_true_eq] at h
  rcases signal with _ | ⟨buf, closed⟩
  · simp [sendSignal, Res.world, World.blank, Runner.blank, h]
  · by_cases hl : buf.length < signalCap <;> cases closed <;>
      simp [sendSignal, Res.world, World.log, World.blank, Runner.blank, Event.blank,
        List.all_append, h, hl]

/-- The body of the loop's switch keeps the request fields and the effects
blank, whatever the signal. -/
theorem handle_blank (o : EngineOutcome) (signal : Nat) (w : World) (h : w.blank = true) :
    (handle o signal w).world.blank = true := by
  obtain ⟨h1, h2, h3, h4, h5⟩ := handlers_blank o w h
  unfold handle
  split_ifs
  · exact h2
  · exact h1
  · exact h5
  · exact h3
  · cases hr : destory w with
    | ok a w1 =>
      rw [hr] at h4
      simpa [M.bind, hr, Res.world, World.blank] using h4
    | panic f w1 =>
      rw [hr] at h4
      simpa [M.bind, hr, Res.world, World.blank] using h4
    | block w1 =>
      rw [hr] at h4
      simpa [M.bind, hr, Res.world, World.blank] using h4
  · simpa [Res.world] using h

/-- Every operation keeps the request fields and the effects blank. -/
theorem Op.run_blank (op : Op) (w : World) (h : w.blank = true) :
    (op.run w).world.blank = true := by
  cases op with
  | Start =>
    obtain ⟨⟨rid, iso, ctx, st, signal, chResp, ka, script, method, sid, args, glob⟩,
      next, pending, looping, trace⟩ := w
    simp only [World.blank, Runner.blank, Bool.and_eq_true, decide_eq_true_eq] at h
    by_cases hs : st = RunnerStatusInit <;> cases ka <;>
      simp [Op.run, Start, M.bind, YaoNewIsolate, NewContext, setStatus, online, World.log,
        Res.world, World.blank, Runner.blank, Event.blank, List.all_append, h, hs]
  | Exec s =>
    have hw : World.blank
        { runner := { w.runner with
            status := RunnerStatusRunning, script := some s, chResp := some w.next },
          next := w.next + 1, pending := w.pending, looping := w.looping,
          trace := w.trace ++ [.status RunnerStatusRunning, .makeResp w.next] } = true := by
      simp only [World.blank, Bool.and_eq_true] at h
      simp [World.blank, Runner.blank, List.all_append, Event.blank, h]
      simpa [Runner.blank] using h.1
    have hsend := sendSignal_blank RunnerCommandExec _ hw
    have he : Exec s w = sendSignal RunnerCommandExec
        { runner := { w.runner with
            status := RunnerStatusRunning, script := some s, chResp := some w.next },
          next := w.next + 1, pending := w.pending, looping := w.looping,
          trace := w.trace ++ [.status RunnerStatusRunning, .makeResp w.next] } := by
      simp [Exec, M.bind, setStatus, World.log]
    simp only [Op.run, he]
    cases hr : sendSignal RunnerCommandExec _ with
    | ok a w1 =>
      rw [hr] at hsend
      simpa [park, Res.world] using hsend
    | panic f w1 =>
      rw [hr] at hsend
      simpa [park, Res.world] using hsend
    | block w1 =>
      rw [hr] at hsend
      simp only [Res.world] at hsend
      cases hsg : w1.runner.signal <;>
        simpa [park, Res.world, hsg, World.blank] using hsend
  | Reset =>
    have hsend := sendSignal_blank RunnerCommandReset w h
    simp only [Op.run, Reset]
    cases hr : sendSignal RunnerCommandReset w with
    | ok a w1 =>
      rw [hr] at hsend
      simpa [park, Res.world] using hsend
    | panic f w1 =>
      rw [hr] at hsend
      simpa [park, Res.world] using hsend
    | block w1 =>
      rw [hr] at hsend
      simp only [Res.world] at hsend
      cases hsg : w1.runner.signal <;>
        simpa [park, Res.world, hsg, World.blank] using hsend
  | Destroy =>
    have hsend := sendSignal_blank RunnerCommandDestroy w h
    simp only [Op.run, Destroy]
    cases hr : sendSignal RunnerCommandDestroy w with
    | ok a w1 =>
      rw [hr] at hsend
      simpa [park, Res.world] using hsend
    | panic f w1 =>
      rw [hr] at hsend
      simpa [park, Res.world] using hsend
    | block w1 =>
      rw [hr] at hsend
      simp only [Res.world] at hsend
      cases hsg : w1.runner.signal <;>
        simpa [park, Res.world, hsg, World.blank] using hsend
  | loop o =>
    simp only [Op.run, loopStep]
    split
    · simpa [Res.world] using h
    · split
      · simpa [Res.world] using h
      · split
        · split
          · apply handle_blank
            simp only [World.blank, Bool.and_eq_true] at h
            simp [World.log, World.blank, List.all_append, Event.blank, h]
          · simpa [Res.world] using h
        · apply handle_blank
          simp only [World.blank, Bool.and_eq_true] at h
          simp [World.log, World.blank, List.all_append, Event.blank, h]
          simpa [Runner.blank] using h.1
  | deliver =>
    simp only [Op.run, deliver]
    split
    · simpa [Res.world] using h
    · rename_i cmd rest hp
      have hsend := sendSignal_blank cmd w h
      split
      · rename_i a w1 heq
        rw [heq] at hsend
        simpa [Res.world, World.blank] using hsend
      · rename_i f w1 heq
        rw [heq] at hsend
        simpa [Res.world] using hsend
      · rename_i w1 heq
        rw [heq] at hsend
        simpa [Res.world] using hsend

/-- Every sequence of operations keeps the request fields and the effects blank. -/
theorem runOps_blank (ops : List Op) (w : World) (h : w.blank = true) :
    (runOps ops w).world.blank = true := by
  induction ops generalizing w with
  | nil => simpa [runOps, Res.world] using h
  | cons op ops ih =>
    have hstep := Op.run_blank op w h
    simp only [runOps]
    cases hr : op.run w with
    | ok a w1 =>
      rw [hr] at hstep
      exact ih w1 hstep
    | block w1 =>
      rw [hr] at hstep
      exact ih w1 hstep
    | panic f w1 =>
      rw [hr] at hstep
      exact hstep

/-- C18: the public `Exec` writes the fields status, script and chResp and
enqueues its command; method, sid, args and global, as well as id, keepalive,
iso and ctx, are unchanged.  Hence for a runner created by `NewRunner`, after
every sequence of `Start`, `Exec`, `Reset`, `Destroy`, loop passes and
goroutine sends, the method name is the empty string, the session id is empty,
arguments and global bindings are nil, and every method call, share-data
injection and argument marshalling made so far carried those values. -/
theorem request_fields_blank (bits seq : Nat) (keepalive : Bool) (s : Script) (ops : List Op)
    (w : World) :
    (Exec s w).world.runner =
      { w.runner with
        status := RunnerStatusRunning, script := some s, chResp := some w.next,
        signal := (Exec s w).world.runner.signal } ∧
    (runOps ops (World.init (NewRunner bits seq keepalive).2)).world.runner.method = "" ∧
    (runOps ops (World.init (NewRunner bits seq keepalive).2)).world.runner.sid = "" ∧
    (runOps ops (World.init (NewRunner bits seq keepalive).2)).world.runner.args = none ∧
    (runOps ops (World.init (NewRunner bits seq keepalive).2)).world.runner.global = none ∧
    (∀ e ∈ (runOps ops (World.init (NewRunner bits seq keepalive).2)).world.trace,
      (∀ c m, e = .methodCall c m → m = "") ∧
      (∀ c sid root g, e = .setShareData c sid root g → sid = "" ∧ g = none) ∧
      (∀ c a, e = .jsValues c a → a = none)) := by
  have h0 : (World.init (NewRunner bits seq keepalive).2).blank = true := by
    simp [World.blank, World.init, NewRunner, Runner.blank]
  have h := runOps_blank ops _ h0
  simp only [World.blank, Runner.blank, Bool.and_eq_true, decide_eq_true_eq, List.all_eq_true]
    at h
  refine ⟨?_, h.1.1, h.1.2.1, h.1.2.2.1, h.1.2.2.2, ?_⟩
  · obtain ⟨⟨rid, iso, ctx, st, signal, chResp, ka, script, method, sid, args, glob⟩,
      next, pending, looping, trace⟩ := w
    rcases signal with _ | ⟨buf, closed⟩
    · simp [Exec, M.bind, setStatus, sendSignal, World.log, Res.world]
    · by_cases hl : buf.length < signalCap <;> cases closed <;>
        simp [Exec, M.bind, setStatus, sendSignal, World.log, Res.world, hl]
  · intro e he
    have hb := h.2 e he
    refine ⟨?_, ?_, ?_⟩
    · intro c m hm
      subst hm
      simpa [Event.blank] using hb
    · intro c sid root g hm
      subst hm
      simpa [Event.blank] using hb
    · intro c a hm
      subst hm
      simpa [Event.blank] using hb

end Runner

namespace FileUploader

/-! ## Chunking -/

/-- An `int` result within range is not changed by the wrap-around. -/
theorem wrapInt_of_range (bits : Nat) (x : Int) (hb : 0 < bits)
    (h1 : -(2 ^ (bits - 1)) ≤ x) (h2 : x < 2 ^ (bits - 1)) : wrapInt bits x = x := by
  obtain ⟨b, rfl⟩ : ∃ b, bits = b + 1 := ⟨bits - 1, by omega⟩
  simp only [wrapInt, Nat.add_sub_cancel] at h1 h2 ⊢
  have hP : (2 : Int) ^ (b + 1) = 2 * 2 ^ b := by ring
  rw [hP]
  generalize (2 : Int) ^ b = P at h1 h2 ⊢
  rw [Int.emod_eq_of_lt (by omega) (by omega)]
  omega

/-- An `int` result above the range by less than the whole range comes out
negative. -/
theorem wrapInt_overflow (bits : Nat) (x : Int) (hb : 0 < bits)
    (h1 : 2 ^ (bits - 1) ≤ x) (h2 : x < 2 ^ bits) : wrapInt bits x = x - 2 ^ bits := by
  obtain ⟨b, rfl⟩ : ∃ b, bits = b + 1 := ⟨bits - 1, by omega⟩
  simp only [wrapInt, Nat.add_sub_cancel] at h1 h2 ⊢
  have hP : (2 : Int) ^ (b + 1) = 2 * 2 ^ b := by ring
  rw [hP] at h2 ⊢
  generalize (2 : Int) ^ b = P at h1 h2 ⊢
  have h3 : (x + P) % (2 * P) = x + P - 2 * P := by
    have h4 : x + P = (x + P - 2 * P) + 2 * P := by ring
    rw [h4, Int.add_emod_self, Int.emod_eq_of_lt (by omega) (by omega)]
    ring
  rw [h3]
  ring

/-- The carry-over slice for an overlap that is not negative: the last
`min(ChunkOverlap, len(buffer))` bytes of the buffer. -/
theorem sliceFrom_carry (bits : Nat) (opts : FileUploadOptions) (buffer : GoString)
    (hb : 0 < bits) (hlen : (buffer.length : Int) < 2 ^ (bits - 1))
    (hov : 0 ≤ opts.ChunkOverlap) (hhi : opts.ChunkOverlap < 2 ^ (bits - 1)) :
    sliceFrom buffer (carryLow bits opts buffer) =
      some (buffer.drop (buffer.length - min opts.ChunkOverlap.toNat buffer.length)) := by
  have hw := wrapInt_of_range bits ((buffer.length : Int) - opts.ChunkOverlap) hb
    (by omega) (by omega)
  simp only [carryLow, hw, sliceFrom, max]
  split_ifs with h1 h2 h3
  · congr 2
    omega
  · omega
  · congr 2
    omega
  · omega

/-- With an overlap that is not negative a pass of the read loop does not
panic, and the buffer it leaves is no longer than the buffer plus the line. -/
theorem scanLine_some (bits : Nat) (opts : FileUploadOptions) (st : ChunkState) (line : GoString)
    (hb : 0 < bits) (hov : 0 ≤ opts.ChunkOverlap) (hhi : opts.ChunkOverlap < 2 ^ (bits - 1))
    (hlen : ((st.buffer.length + (line.length + 1) : Nat) : Int) < 2 ^ (bits - 1)) :
    ∃ st1, scanLine bits opts st line = some st1 ∧
      st1.buffer.length ≤ st.buffer.length + (line.length + 1) := by
  have hl : (st.buffer ++ (line ++ [10])).length = st.buffer.length + (line.length + 1) := by
    simp
  have hs := sliceFrom_carry bits opts (st.buffer ++ (line ++ [10])) hb (by rw [hl]; exact hlen)
    hov hhi
  simp only [scanLine]
  split_ifs with h
  · rw [hs]
    refine ⟨_, rfl, ?_⟩
    simp only [List.length_drop, hl]
    omega
  · exact ⟨_, rfl, by simp⟩

/-- With an overlap that is not negative the read loop does not panic. -/
theorem readLoop_some (bits : Nat) (opts : FileUploadOptions) (lines : List GoString)
    (st : ChunkState) (hb : 0 < bits) (hov : 0 ≤ opts.ChunkOverlap)
    (hhi : opts.ChunkOverlap < 2 ^ (bits - 1))
    (hlen : ((st.buffer.length + (linesText lines).length : Nat) : Int) < 2 ^ (bits - 1)) :
    ∃ st1, readLoop bits opts st lines = some st1 := by
  induction lines generalizing st with
  | nil => exact ⟨st, rfl⟩
  | cons line lines ih =>
    have hl : (linesText (line :: lines)).length = (line.length + 1) + (linesText lines).length := by
      simp only [linesText, List.map_cons, List.flatten_cons, List.length_append,
        List.length_singleton]
    rw [hl] at hlen
    obtain ⟨st1, h1, h2⟩ := scanLine_some bits opts st line hb hov hhi (by push_cast at hlen ⊢; omega)
    simp only [readLoop, h1]
    exact ih st1 (by push_cast at hlen ⊢; omega)

/-- Without overlap the read loop keeps the text: documents followed by buffer
spell the text so far, and no document is empty. -/
theorem readLoop_no_overlap (bits : Nat) (opts : FileUploadOptions) (lines : List GoString)
    (st : ChunkState) (hb : 0 < bits) (hov : opts.ChunkOverlap = 0)
    (hlen : ((st.buffer.length + (linesText lines).length : Nat) : Int) < 2 ^ (bits - 1))
    (hne : ∀ d ∈ st.documents, d.Content ≠ []) :
    ∃ st1, readLoop bits opts st lines = some st1 ∧
      contents st1.documents ++ st1.buffer = contents st.documents ++ st.buffer ++ linesText lines ∧
      (∀ d ∈ st1.documents, d.Content ≠ []) ∧
      (lines = [] → st1 = st) := by
  induction lines generalizing st with
  | nil => exact ⟨st, rfl, by simp [linesText], hne, fun _ => rfl⟩
  | cons line lines ih =>
    have hl : (linesText (line :: lines)).length = (line.length + 1) + (linesText lines).length := by
      simp only [linesText, List.map_cons, List.flatten_cons, List.length_append,
        List.length_singleton]
    have hlb : (st.buffer ++ (line ++ [10])).length = st.buffer.length + (line.length + 1) := by
      simp
    rw [hl] at hlen
    have hs := sliceFrom_carry bits opts (st.buffer ++ (line ++ [10])) hb
      (by rw [hlb]; push_cast at hlen ⊢; omega) (by omega)
      (by rw [hov]; exact pow_pos (by norm_num) _)
    simp only [hov, Int.toNat_zero, Nat.zero_min, Nat.sub_zero, List.drop_length] at hs
    simp only [readLoop, scanLine]
    split_ifs with h
    · rw [hs]
      obtain ⟨st1, h1, h2, h3, _⟩ := ih
        { buffer := [], documents := st.documents ++ [newDocument opts st (st.buffer ++ (line ++ [10]))],
          docID := st.docID + 1 }
        (by push_cast at hlen ⊢; simp only [List.length_nil]; omega)
        (by
          intro d hd
          rcases List.mem_append.1 hd with hd | hd
          · exact hne d hd
          · simp only [List.mem_singleton] at hd
            subst hd
            simp [newDocument])
      refine ⟨st1, h1, ?_, h3, by simp⟩
      rw [h2]
      simp [contents, linesText, newDocument]
    · obtain ⟨st1, h1, h2, h3, _⟩ := ih { st with buffer := st.buffer ++ (line ++ [10]) }
        (by simp only [hlb]; push_cast at hlen ⊢; omega) hne
      refine ⟨st1, h1, ?_, h3, by simp⟩
      rw [h2]
      simp [contents, linesText]

/-- The synchronous indexing loop succeeds on an engine whose calls succeed. -/
theorem indexAll_okEngine (name : GoString) (docs : List Document) :
    indexAll okEngine name docs = none := by
  induction docs with
  | nil => rfl
  | cons d ds ih => simpa [indexAll, okEngine] using ih

/-- C19: without overlap, for every sequence of lines (of a total length an
`int` can hold) and every chunk size, the chunking does not panic, the
contents of the documents in order spell every line followed by a newline, no
document is empty, empty input yields no documents, and when reading and
indexing succeed these are the documents `Upload` returns. -/
theorem chunks_lossless (bits : Nat) (opts : FileUploadOptions) (lines : List GoString)
    (hb : 0 < bits) (hov : opts.ChunkOverlap = 0)
    (hlen : ((linesText lines).length : Int) < 2 ^ (bits - 1)) :
    ∃ docs, chunks bits opts lines = some docs ∧
      contents docs = linesText lines ∧
      (∀ d ∈ docs, d.Content ≠ []) ∧
      (lines = [] → docs = []) ∧
      (∃ taskID, Upload bits okEngine lines none opts = .ok docs taskID) ∧
      (∀ engine docs1 taskID, Upload bits engine lines none opts = .ok docs1 taskID →
        docs1 = docs) := by
  have hov1 : (withDefaults opts).ChunkOverlap = 0 := by
    simp only [withDefaults]
    split_ifs <;> simp [hov]
  obtain ⟨st, h1, h2, h3, h4⟩ := readLoop_no_overlap bits (withDefaults opts) lines
    { buffer := [], documents := [], docID := 1 } hb hov1 (by simpa using hlen) (by simp)
  have hc : chunks bits opts lines = some (if st.buffer.length > 0 then
      st.documents ++ [newDocument (withDefaults opts) st st.buffer] else st.documents) := by
    simp only [chunks, h1]
    split_ifs <;> rfl
  simp only [contents, List.map_nil, List.flatten_nil, List.nil_append] at h2
  generalize hd : (if st.buffer.length > 0 then
      st.documents ++ [newDocument (withDefaults opts) st st.buffer] else st.documents) = docs
    at hc
  refine ⟨docs, hc, ?_, ?_, ?_, ?_, ?_⟩
  · rw [← hd]
    split_ifs with h
    · simpa [contents, newDocument] using h2
    · have hnil : st.buffer = [] := List.length_eq_zero.1 (by omega)
      simpa [contents, hnil] using h2
  · intro d hmem
    rw [← hd] at hmem
    split_ifs at hmem with h
    · rcases List.mem_append.1 hmem with hmem | hmem
      · exact h3 d hmem
      · simp only [List.mem_singleton] at hmem
        subst hmem
        simp only [newDocument]
        exact List.ne_nil_of_length_pos h
    · exact h3 d hmem
  · intro hl
    rw [← hd, h4 hl]
    simp
  · simp only [Upload, hc, indexAll_okEngine]
    split_ifs
    · exact ⟨_, rfl⟩
    · exact ⟨_, rfl⟩
    · exact ⟨_, rfl⟩
  · intro engine docs1 taskID hu
    simp only [Upload, hc] at hu
    split_ifs at hu
    · split at hu
      · simp at hu
      · simp only [UploadResult.ok.injEq] at hu
        exact hu.1.symm
    · split at hu
      · simp at hu
      · simp only [UploadResult.ok.injEq] at hu
        exact hu.1.symm
    · simp only [UploadResult.ok.injEq] at hu
      exact hu.1.symm

/-- C19, at five lines and chunk size 4. -/
theorem chunks_lossless_witness :
    ∃ docs, chunks 64 { ChunkSize := 4, ChunkOverlap := 0, Async := false, IndexName := [] }
        [[1, 2], [3], [4, 5, 6, 7, 8], [], [9]] = some docs ∧
      contents docs = linesText [[1, 2], [3], [4, 5, 6, 7, 8], [], [9]] ∧
      (∀ d ∈ docs, d.Content ≠ []) :=
  (chunks_lossless 64 { ChunkSize := 4, ChunkOverlap := 0, Async := false, IndexName := [] }
    [[1, 2], [3], [4, 5, 6, 7, 8], [], [9]] (by decide) (by decide) (by decide)).imp
    fun _ h => ⟨h.1, h.2.1, h.2.2.1⟩

/-- C20, counterexample: with a 64-bit `int` and `ChunkOverlap` the least `int`,
which is negative, the subtraction wraps around, the carry-over slice starts
at 0 and is within bounds: the chunking of one empty line does not panic and
carries the whole buffer over. -/
theorem carry_within_bounds_negative_overlap :
    (-2 ^ 63 : Int) < 0 ∧
    carryLow 64
      { ChunkSize := 1, ChunkOverlap := -2 ^ 63, Async := false, IndexName := [] } [10] = 0 ∧
    sliceFrom [10] (carryLow 64
      { ChunkSize := 1, ChunkOverlap := -2 ^ 63, Async := false, IndexName := [] } [10]) =
      some [10] ∧
    chunks 64 { ChunkSize := 1, ChunkOverlap := -2 ^ 63, Async := false, IndexName := [] } [[]] =
      some [{ DocID := 1, Content := [10], ChunkSize := 1, ChunkOverlap := -2 ^ 63,
              ChunkNumber := 1 },
            { DocID := 2, Content := [10], ChunkSize := 1, ChunkOverlap := -2 ^ 63,
              ChunkNumber := 2 }] := by
  decide

/-- C20, amended: for a buffer and a `ChunkOverlap` that an `int` can hold, the
carry-over slice is within bounds if and only if `ChunkOverlap` is not negative
or the subtraction `len(buffer) - ChunkOverlap` overflows.  Hence with
`ChunkOverlap >= 0` the chunking never indexes out of range, whatever the
input, and the buffer carried over is the last `min(ChunkOverlap, len(buffer))`
bytes of the emitted chunk. -/
theorem carry_over_bounds (bits : Nat) (opts : FileUploadOptions) (buffer : GoString)
    (hb : 0 < bits) (hlen : (buffer.length : Int) < 2 ^ (bits - 1))
    (hlo : -(2 ^ (bits - 1)) ≤ opts.ChunkOverlap) (hhi : opts.ChunkOverlap < 2 ^ (bits - 1)) :
    ((sliceFrom buffer (carryLow bits opts buffer)).isSome = true ↔
      (0 ≤ opts.ChunkOverlap ∨ 2 ^ (bits - 1) ≤ (buffer.length : Int) - opts.ChunkOverlap)) ∧
    (0 ≤ opts.ChunkOverlap →
      sliceFrom buffer (carryLow bits opts buffer) =
        some (buffer.drop (buffer.length - min opts.ChunkOverlap.toNat buffer.length)) ∧
      (buffer.drop (buffer.length - min opts.ChunkOverlap.toNat buffer.length)).length =
        min opts.ChunkOverlap.toNat buffer.length) ∧
    (0 ≤ opts.ChunkOverlap → ∀ lines : List GoString,
      ((linesText lines).length : Int) < 2 ^ (bits - 1) →
      (chunks bits opts lines).isSome = true) := by
  refine ⟨?_, ?_, ?_⟩
  · by_cases hov : 0 ≤ opts.ChunkOverlap
    · simp [sliceFrom_carry bits opts buffer hb hlen hov hhi, hov]
    · by_cases hx : (2 : Int) ^ (bits - 1) ≤ (buffer.length : Int) - opts.ChunkOverlap
      · have h2 : (2 : Int) ^ bits = 2 * 2 ^ (bits - 1) := by
          obtain ⟨b, rfl⟩ : ∃ b, bits = b + 1 := ⟨bits - 1, by omega⟩
          simp only [Nat.add_sub_cancel]
          ring
        have hw := wrapInt_overflow bits ((buffer.length : Int) - opts.ChunkOverlap) hb hx
          (by rw [h2]; omega)
        have hl : carryLow bits opts buffer = 0 := by
          simp only [carryLow, hw, max, h2]
          split_ifs with h
          · rfl
          · omega
        simp [hl, sliceFrom, hx]
      · have hw := wrapInt_of_range bits ((buffer.length : Int) - opts.ChunkOverlap) hb
          (by omega) (by omega)
        have hl : carryLow bits opts buffer = (buffer.length : Int) - opts.ChunkOverlap := by
          simp only [carryLow, hw, max]
          split_ifs with h
          · omega
          · rfl
        have hn : ¬ ((buffer.length : Int) - opts.ChunkOverlap ≤ (buffer.length : Int)) := by
          omega
        simp [hl, sliceFrom, hx, hov, hn]
  · intro hov
    refine ⟨sliceFrom_carry bits opts buffer hb hlen hov hhi, ?_⟩
    simp only [List.length_drop]
    omega
  · intro hov lines hl
    have hov1 : (withDefaults opts).ChunkOverlap = opts.ChunkOverlap := by
      simp only [withDefaults]
      split_ifs <;> rfl
    obtain ⟨st, h1⟩ := readLoop_some bits (withDefaults opts) lines
      { buffer := [], documents := [], docID := 1 } hb (by rw [hov1]; exact hov)
      (by rw [hov1]; exact hhi) (by simpa using hl)
    simp only [chunks, h1]
    split_ifs <;> rfl

/-- C20, amended, at a buffer of five bytes and an overlap of 2. -/
theorem carry_over_bounds_witness :
    ((sliceFrom [1, 2, 10, 3, 10] (carryLow 64
        { ChunkSize := 4, ChunkOverlap := 2, Async := false, IndexName := [] }
        [1, 2, 10, 3, 10])).isSome = true ↔
      ((0 : Int) ≤ 2 ∨ (2 : Int) ^ (64 - 1) ≤ (([1, 2, 10, 3, 10] : GoString).length : Int) - 2)) ∧
    sliceFrom [1, 2, 10, 3, 10] (carryLow 64
        { ChunkSize := 4, ChunkOverlap := 2, Async := false, IndexName := [] }
        [1, 2, 10, 3, 10]) = some [3, 10] :=
  ⟨(carry_over_bounds 64 { ChunkSize := 4, ChunkOverlap := 2, Async := false, IndexName := [] }
      [1, 2, 10, 3, 10] (by decide) (by decide) (by decide) (by decide)).1, by decide⟩

end FileUploader
